import Mathlib

/-!
Verification of the rule-matching and template filter-chain engine of the
obsidian-custom-views plugin.

JavaScript strings are modelled as `List Char` (one entry per UTF-16 unit;
none of the studied inputs contain astral-plane characters).  JavaScript
numbers are modelled as exact rationals (`JsNum`); non-finite values (NaN, Infinity)
are represented by `Option`/failure where the code can observe them, and
computations whose results are irrational or rely on float rounding are
outside the modelled domain (they are never reached by the claims below).
Fallible JavaScript evaluation (thrown exceptions) is modelled with
`Except Unit`.
-/

/-- Shorthand: the character list of a string literal (JS string value). -/
def js (s : String) : List Char := s.data

/-- Characters treated as whitespace by JS String.prototype.trim and by
Number()/parseFloat leading-whitespace skipping (main cases of the WhiteSpace
and LineTerminator productions; exotic Unicode space characters behave the
same way and are not distinguished by any studied input). -/
def isJsSpace (c : Char) : Bool :=
  c = ' ' || c = '\t' || c = '\n' || c = '\x0d' || c = '\x0b' || c = '\x0c' ||
  c.toNat = 0xa0 || c.toNat = 0xfeff

/-- JS String.prototype.trim: strip leading and trailing whitespace. -/
def jsTrim (s : List Char) : List Char :=
  ((s.dropWhile isJsSpace).reverse.dropWhile isJsSpace).reverse

/-- JS String.prototype.startsWith for a string argument. -/
def jsStartsWith (s p : List Char) : Bool := p.isPrefixOf s

/-- JS String.prototype.endsWith for a string argument. -/
def jsEndsWith (s p : List Char) : Bool := p.isSuffixOf s

/-- JS String.prototype.includes: substring test. -/
def jsIncludes (s sub : List Char) : Bool :=
  match s with
  | [] => sub.isEmpty
  | _ :: rest => sub.isPrefixOf s || jsIncludes rest sub

/-- JS String.prototype.split with a single-character separator: `""` splits
to `[""]`, separators at the ends produce empty pieces, exactly as in JS. -/
def jsSplitChar (sep : Char) : List Char → List (List Char)
  | [] => [[]]
  | c :: rest =>
    match jsSplitChar sep rest with
    | [] => [[c]]
    | g :: gs => if c = sep then [] :: g :: gs else (c :: g) :: gs

/-- Decimal digit character. -/
def digitChar (n : Nat) : Char := Char.ofNat (48 + n)

/-- Is this an ASCII decimal digit? -/
def isDigitCh (c : Char) : Bool := 48 ≤ c.toNat && c.toNat ≤ 57

/-- Numeric value of an ASCII digit character. -/
def digitVal (c : Char) : Nat := c.toNat - 48

/-- Decimal representation of a natural number (JS Number.prototype.toString
for non-negative integers below 1e21). -/
def jsNatToString (n : Nat) : List Char := (Nat.repr n).data

/-- Decimal representation of an integer (JS toString for safe integers). -/
def jsIntToString (n : Int) : List Char :=
  if n < 0 then '-' :: jsNatToString n.natAbs else jsNatToString n.toNat

/-- Euclid's algorithm with explicit fuel, so that the kernel can evaluate
it (the library gcd is defined by well-founded recursion and does not
reduce). -/
def gcdFuel : Nat → Nat → Nat → Nat
  | 0, a, b => a + b
  | _ + 1, 0, b => b
  | f + 1, a, b => gcdFuel f (b % a) a

/-- Greatest common divisor (fuel is always sufficient: the first argument
strictly decreases each round). -/
def gcdN (a b : Nat) : Nat := gcdFuel (a + b + 1) a b

/-- A JS number modelled as an exact rational, kept in lowest terms with a
positive denominator.  Non-finite values (NaN, Infinity) are outside this
type and are modelled by `Option`/failure where the code can observe them. -/
structure JsNum where
  num : Int
  den : Nat
deriving DecidableEq, Repr

/-- Normalizing constructor. -/
def JsNum.mk' (n : Int) (d : Nat) : JsNum :=
  if d = 0 then ⟨0, 1⟩
  else
    let g := gcdN n.natAbs d
    if g = 0 then ⟨0, 1⟩ else ⟨n / (g : Int), d / g⟩

instance (n : Nat) : OfNat JsNum n := ⟨⟨n, 1⟩⟩

/-- Embed an integer. -/
def JsNum.ofInt (n : Int) : JsNum := ⟨n, 1⟩

instance : Add JsNum :=
  ⟨fun a b => JsNum.mk' (a.num * b.den + b.num * a.den) (a.den * b.den)⟩

instance : Sub JsNum :=
  ⟨fun a b => JsNum.mk' (a.num * b.den - b.num * a.den) (a.den * b.den)⟩

instance : Mul JsNum := ⟨fun a b => JsNum.mk' (a.num * b.num) (a.den * b.den)⟩

/-- Reciprocal; the reciprocal of 0 is JS Infinity, outside the model (0
here, documented at the call sites). -/
def JsNum.inv (a : JsNum) : JsNum :=
  if a.num = 0 then ⟨0, 1⟩
  else if 0 < a.num then JsNum.mk' a.den a.num.toNat
  else JsNum.mk' (-(a.den : Int)) a.num.natAbs

instance : Div JsNum := ⟨fun a b => a * b.inv⟩

/-- Natural-number power. -/
def JsNum.npow (a : JsNum) : Nat → JsNum
  | 0 => 1
  | k + 1 => a * a.npow k

/-- Is this an integer value? -/
def JsNum.isInt (a : JsNum) : Bool := a.den = 1

/-- JS ToString of a number modelled as a rational.  Exact for integers; a
non-integral rational is outside the modelled stringification domain (the
claims never stringify one) and is printed as an exact fraction. -/
def jsRatToString (q : JsNum) : List Char :=
  if q.den = 1 then jsIntToString q.num
  else jsIntToString q.num ++ '/' :: jsNatToString q.den

/-- Core decimal parser shared by the Number() and parseFloat models: parse an
optional sign, an integer part, an optional fraction and an optional exponent
from the front of the input; return the parsed rational together with the
unconsumed rest, or `none` when no digits at all were found.  Models the
ECMAScript StrDecimalLiteral grammar restricted to decimal notation
(`Infinity` and non-decimal radix prefixes are outside the rational model). -/
def parseDecCore (s : List Char) : Option (JsNum × List Char) :=
  let (sign, s₁) : Int × List Char :=
    match s with
    | '+' :: r => (1, r)
    | '-' :: r => (-1, r)
    | r => (1, r)
  let intDigits := s₁.takeWhile isDigitCh
  let s₂ := s₁.drop intDigits.length
  let (fracDigits, s₃) : List Char × List Char :=
    match s₂ with
    | '.' :: r => (r.takeWhile isDigitCh, r.drop (r.takeWhile isDigitCh).length)
    | r => ([], r)
  if intDigits.isEmpty && fracDigits.isEmpty then none
  else
    let mant : JsNum :=
      JsNum.ofInt (intDigits.foldl (fun a c => a * 10 + digitVal c) 0 : Nat) +
      JsNum.ofInt (fracDigits.foldl (fun a c => a * 10 + digitVal c) 0 : Nat) /
        (10 : JsNum).npow fracDigits.length
    let (expo, s₄) : Int × List Char :=
      match s₃ with
      | 'e' :: r => parseExpPart r s₃
      | 'E' :: r => parseExpPart r s₃
      | r => (0, r)
    let scaled : JsNum :=
      if 0 ≤ expo then mant * (10 : JsNum).npow expo.toNat
      else mant / (10 : JsNum).npow expo.natAbs
    some (JsNum.ofInt sign * scaled, s₄)
where
  /-- Parse the exponent digits after `e`/`E`; if they are missing the
  exponent marker is not consumed (JS leaves it as trailing input). -/
  parseExpPart (r whole : List Char) : Int × List Char :=
    let (esign, r₁) : Int × List Char :=
      match r with
      | '+' :: rr => (1, rr)
      | '-' :: rr => (-1, rr)
      | rr => (1, rr)
    let eDigits := r₁.takeWhile isDigitCh
    if eDigits.isEmpty then (0, whole)
    else (esign * (eDigits.foldl (fun a c => a * 10 + digitVal c) 0 : Nat),
          r₁.drop eDigits.length)

/-- Model of JS `Number(string)`: trim, empty string is 0, otherwise the whole
remaining text must be a decimal literal.  `none` plays the role of NaN.
(Radix-prefixed literals and `Infinity`, which JS also accepts, are outside
the rational model; no studied input uses them.) -/
def jsStrToNumber (s : List Char) : Option JsNum :=
  let t := jsTrim s
  if t.isEmpty then some 0
  else match parseDecCore t with
    | some (q, []) => some q
    | _ => none

/-- Model of JS `parseFloat(string)`: skip leading whitespace, parse the
longest decimal prefix, ignore trailing garbage; `none` is NaN. -/
def jsParseFloat (s : List Char) : Option JsNum :=
  match parseDecCore (s.dropWhile isJsSpace) with
  | some (q, _) => some q
  | none => none

/-- JS `Math.pow` restricted to the modelled domain: exact for integer
exponents; a fractional exponent (irrational result in general) is outside
the model and mapped to 0.  The claims only exponentiate by naturals. -/
def jsPow (b e : JsNum) : JsNum :=
  if e.den = 1 then
    if 0 ≤ e.num then b.npow e.num.toNat else (b.npow e.num.natAbs).inv
  else 0

/-! ## Filter-chain engine (src/filters.ts, typed revision) -/

/-- A JS runtime value flowing through the template filter chain
(`FilterValue` plus the `undefined` result some filters can produce). -/
inductive JsValue where
  | str (s : List Char)
  | num (q : JsNum)
  | bool (b : Bool)
  | arr (l : List JsValue)
  | null
  | undef

/-- A parsed filter-chain argument (`parseArgs` produces strings or numbers). -/
inductive JsArg where
  | str (s : List Char)
  | num (q : JsNum)
deriving DecidableEq, Repr

mutual

/-- JS ToString on the modelled value union.  Arrays stringify like
Array.prototype.toString: elements joined with a comma, `null`/`undefined`
elements becoming empty strings. -/
def jsToString : JsValue → List Char
  | .str s => s
  | .num q => jsRatToString q
  | .bool b => if b then js "true" else js "false"
  | .arr l => jsToStrArr l
  | .null => js "null"
  | .undef => js "undefined"

/-- Array.prototype.toString: elements joined with commas. -/
def jsToStrArr : List JsValue → List Char
  | [] => []
  | [v] => jsToStrElem v
  | v :: rest => jsToStrElem v ++ ',' :: jsToStrArr rest

/-- An array element inside join: null and undefined become empty strings. -/
def jsToStrElem : JsValue → List Char
  | .null => []
  | .undef => []
  | .str s => s
  | .num q => jsRatToString q
  | .bool b => if b then js "true" else js "false"
  | .arr l => jsToStrArr l

end

/-- `cleanQuote` (src/filters.ts): trim, strip one layer of matching outer
quotes, otherwise convert to a number when `Number(str)` is not NaN. -/
def cleanQuote (s : List Char) : JsArg :=
  let t := jsTrim s
  if (jsStartsWith t (js "\"") && jsEndsWith t (js "\"")) ||
     (jsStartsWith t (js "'") && jsEndsWith t (js "'")) then
    .str (t.drop 1).dropLast
  else
    match jsStrToNumber t with
    | some q => .num q
    | none => .str t

/-- Strip one layer of an optional enclosing `(...)`, as the regex
`^\((.*)\)$` does: `.` does not match line terminators, so the layer is only
stripped when the inner text has none. -/
def stripParens (t : List Char) : List Char :=
  match t with
  | '(' :: rest =>
    if rest ≠ [] && rest.getLast? = some ')' &&
       rest.dropLast.all (fun c => c ≠ '\n' && c ≠ '\x0d') then
      rest.dropLast
    else t
  | _ => t

/-- The comma-splitting scanner inside `parseArgs`: split on commas that are
outside quotes (a single flag toggled by either quote character, quotes kept
in the pieces), `cleanQuote` each piece, and keep a final piece only when it
is non-empty. -/
def parseArgsScan : List Char → Bool → List Char → List JsArg
  | [], _, current =>
    if current.isEmpty then [] else [cleanQuote current]
  | c :: rest, inQuote, current =>
    if c = '"' || c = '\'' then
      parseArgsScan rest (!inQuote) (current ++ [c])
    else if c = ',' && !inQuote then
      cleanQuote current :: parseArgsScan rest inQuote []
    else
      parseArgsScan rest inQuote (current ++ [c])

/-- `parseArgs` (src/filters.ts): empty string means no arguments, otherwise
trim, strip one optional paren layer and run the quote-aware comma split. -/
def parseArgs (argString : List Char) : List JsArg :=
  if argString.isEmpty then []
  else parseArgsScan (stripParens (jsTrim argString)) false []

/-- Argument access with JS call semantics: a missing argument is
`undefined`; filter bodies observe it through these views. -/
def argGet (args : List JsArg) (i : Nat) : Option JsArg := args.get? i

/-- JS truthiness of an argument (`alias ? ... : ...` tests). -/
def argTruthy : Option JsArg → Bool
  | none => false
  | some (.str s) => !s.isEmpty
  | some (.num q) => q ≠ 0

/-- String view of an argument where the filter body applies String(_). -/
def argToString : Option JsArg → List Char
  | none => js "undefined"
  | some (.str s) => s
  | some (.num q) => jsRatToString q

/-! ## UTC calendar model (the host's Date builtin, used by the matcher's
date-family operators and the `date` filters) -/

/-! The proleptic-Gregorian day-to-date conversion performed by the host's
`Date.prototype.toISOString`, written as the standard era decomposition
(146097-day eras of 400 years) with one function per intermediate quantity
so the bounds can be reasoned about individually. -/

/-- Year-of-era (0–399) of a day-of-era. -/
def yoeOf (doe : Nat) : Nat :=
  (doe - doe / 1460 + doe / 36524 - doe / 146096) / 365

/-- First day-of-era of a (March-based) year-of-era. -/
def yearStart (y : Nat) : Nat := 365 * y + y / 4 - y / 100

/-- Day within its (March-based) year. -/
def doyOf (doe : Nat) : Nat := doe - yearStart (yoeOf doe)

/-- Month index counted from March (0 = March … 11 = February). -/
def mpD (doy : Nat) : Nat := (5 * doy + 2) / 153

/-- Day of the month (1-based) of a day-of-year. -/
def dD (doy : Nat) : Nat := doy - (153 * mpD doy + 2) / 5 + 1

/-- Calendar month (1–12) of a day-of-year. -/
def mD (doy : Nat) : Nat := if mpD doy < 10 then mpD doy + 3 else mpD doy - 9

/-- Calendar month of a day-of-era. -/
def monthOf (doe : Nat) : Nat := mD (doyOf doe)

/-- Day of the month of a day-of-era. -/
def dayOf (doe : Nat) : Nat := dD (doyOf doe)

/-- Year within the 400-year cycle (year-of-era bumped by one in January and
February). -/
def zzOf (doe : Nat) : Nat :=
  yoeOf doe + (if monthOf doe ≤ 2 then 1 else 0)

/-- Days-since-epoch (shifted by 719468 so day 0 is 0000-03-01) to a civil
`(year, month, day)` triple, proleptic Gregorian, as computed by the host's
`Date.prototype.toISOString`. -/
def civilFromDays (z : Nat) : Nat × Nat × Nat :=
  (z / 146097 * 400 + zzOf (z % 146097), monthOf (z % 146097), dayOf (z % 146097))

/-- Four-digit zero-padded decimal (toISOString year field, years 0–9999). -/
def pad4 (n : Nat) : List Char :=
  [digitChar (n / 1000 % 10), digitChar (n / 100 % 10),
   digitChar (n / 10 % 10), digitChar (n % 10)]

/-- Two-digit zero-padded decimal (toISOString month/day fields). -/
def pad2 (n : Nat) : List Char := [digitChar (n / 10 % 10), digitChar (n % 10)]

/-- `YYYY-MM-DD` rendering of a civil triple. -/
def formatCivil : Nat × Nat × Nat → List Char
  | (y, m, d) => pad4 y ++ '-' :: pad2 m ++ '-' :: pad2 d

/-- Model of `new Date(t).toISOString().split('T')[0]`: the UTC calendar day
of a millisecond timestamp as a `YYYY-MM-DD` string.  Exact for timestamps
whose UTC year lies in 0–9999 (four-digit years); earlier timestamps are
outside the modelled range and map to the empty string, later ones to a
truncated year (toISOString would use the expanded ±YYYYYY form there). -/
def msToUtcDateStr (t : Int) : List Char :=
  let day := Int.fdiv t 86400000
  let z := day + 719468
  if z < 0 then [] else formatCivil (civilFromDays z.toNat)

/-- Gregorian leap-year test. -/
def isLeap (y : Nat) : Bool := (y % 4 = 0 && y % 100 ≠ 0) || y % 400 = 0

/-- Length of a month in a given year. -/
def daysInMonth (y m : Nat) : Nat :=
  if m = 2 then (if isLeap y then 29 else 28)
  else if m = 4 || m = 6 || m = 9 || m = 11 then 30 else 31

/-- Inverse civil conversion: days since the Unix epoch of a civil date. -/
def daysFromCivil (y m d : Nat) : Int :=
  let y' : Int := (y : Int) - (if m ≤ 2 then 1 else 0)
  let era := Int.fdiv y' 400
  let yoe := (y' - era * 400).toNat
  let doy := (153 * (if m > 2 then m - 3 else m + 9) + 2) / 5 + d - 1
  let doe := yoe * 365 + yoe / 4 - yoe / 100 + doy
  era * 146097 + (doe : Int) - 719468

/-- Model of the host's Date string parser on the strict `YYYY-MM-DD` ISO
form, which is the only form the plugin feeds it (toISOString output, or the
filter value truncated at `'T'`).  Out-of-range fields give an invalid date
(`none`); non-ISO strings are implementation-defined in JS and are outside
the model (also `none`). -/
def parseUtcDate (s : List Char) : Option (Nat × Nat × Nat) :=
  match s with
  | [y1, y2, y3, y4, h1, m1, m2, h2, d1, d2] =>
    if h1 = '-' && h2 = '-' && [y1, y2, y3, y4, m1, m2, d1, d2].all isDigitCh then
      let y := ((digitVal y1 * 10 + digitVal y2) * 10 + digitVal y3) * 10 + digitVal y4
      let m := digitVal m1 * 10 + digitVal m2
      let d := digitVal d1 * 10 + digitVal d2
      if 1 ≤ m && m ≤ 12 && 1 ≤ d && d ≤ daysInMonth y m then some (y, m, d)
      else none
    else none
  | _ => none

/-- Model of `new Date(str).getTime()` after `setHours(0, 0, 0, 0)`, for the
date strings above.  The host's local timezone is modelled as UTC, making the
`setHours` normalization the identity; both comparison operands receive the
same treatment, so comparisons are unaffected.  `none` is the NaN time of an
invalid date. -/
def dateStrToMs (s : List Char) : Option Int :=
  (parseUtcDate s).map fun ymd => daysFromCivil ymd.1 ymd.2.1 ymd.2.2 * 86400000

/-- `str.split('T')[0]`: the prefix before the first `'T'`. -/
def splitHeadT (s : List Char) : List Char := s.takeWhile (fun c => c ≠ 'T')

/-- JS `===` on possibly-NaN times (`none` is NaN, never equal). -/
def jsNumEqOpt : Option Int → Option Int → Bool
  | some a, some b => a == b
  | _, _ => false

/-- JS `!==` on possibly-NaN times (NaN is unequal to everything). -/
def jsNumNeOpt : Option Int → Option Int → Bool
  | some a, some b => !(a == b)
  | _, _ => true

/-- JS `<` on possibly-NaN times (false when either side is NaN). -/
def jsNumLtOpt : Option Int → Option Int → Bool
  | some a, some b => a < b
  | _, _ => false

/-- JS `<=` on possibly-NaN times. -/
def jsNumLeOpt : Option Int → Option Int → Bool
  | some a, some b => a ≤ b
  | _, _ => false

/-- JS `>` on possibly-NaN times. -/
def jsNumGtOpt : Option Int → Option Int → Bool
  | some a, some b => b < a
  | _, _ => false

/-- JS `>=` on possibly-NaN times. -/
def jsNumGeOpt : Option Int → Option Int → Bool
  | some a, some b => b ≤ a
  | _, _ => false

/-! ## Text helpers used by the filter registry -/

/-- ASCII uppercase letter. -/
def isUpperCh (c : Char) : Bool := 65 ≤ c.toNat && c.toNat ≤ 90

/-- ASCII lowercase letter. -/
def isLowerCh (c : Char) : Bool := 97 ≤ c.toNat && c.toNat ≤ 122

/-- ASCII letter or digit (the regex class `[a-zA-Z0-9]`). -/
def isAlphaNumCh (c : Char) : Bool := isUpperCh c || isLowerCh c || isDigitCh c

/-- Regex word character `\w` (letters, digits, underscore). -/
def isWordCh (c : Char) : Bool := isAlphaNumCh c || c = '_'

/-- The word tokenizer of the `kebab`/`snake` filters: the matches of the
regex `[A-Z]{2,}(?=[A-Z][a-z]+[0-9]*|\b)|[A-Z]?[a-z]+[0-9]*|[A-Z]|[0-9]+`
over the input (left to right, non-matching characters dropped).  An
uppercase run followed by a lowercase letter yields the run minus its last
capital, which instead heads the following word; an uppercase run followed
by a digit or underscore has no word boundary and decomposes into single
capitals. -/
def wordTokensAux : Nat → List Char → List (List Char)
  | 0, _ => []
  | _, [] => []
  | f + 1, c :: rest =>
    if isUpperCh c then
      let uRun := (c :: rest).takeWhile isUpperCh
      let after := (c :: rest).drop uRun.length
      if 2 ≤ uRun.length then
        match after with
        | a :: _ =>
          if isLowerCh a then
            uRun.dropLast :: wordTokensAux f (uRun.getLastD 'A' :: after)
          else if isWordCh a then
            uRun.map (fun u => [u]) ++ wordTokensAux f after
          else uRun :: wordTokensAux f after
        | [] => [uRun]
      else
        match after with
        | a :: _ =>
          if isLowerCh a then
            let lowRun := after.takeWhile isLowerCh
            let after2 := after.drop lowRun.length
            let digs := after2.takeWhile isDigitCh
            (c :: lowRun ++ digs) :: wordTokensAux f (after2.drop digs.length)
          else [c] :: wordTokensAux f after
        | [] => [[c]]
    else if isLowerCh c then
      let lowRun := (c :: rest).takeWhile isLowerCh
      let after := (c :: rest).drop lowRun.length
      let digs := after.takeWhile isDigitCh
      (lowRun ++ digs) :: wordTokensAux f (after.drop digs.length)
    else if isDigitCh c then
      let digs := (c :: rest).takeWhile isDigitCh
      digs :: wordTokensAux f ((c :: rest).drop digs.length)
    else wordTokensAux f rest

/-- Word tokens of a string (fuel is the length: every step consumes at least
one character). -/
def wordTokens (s : List Char) : List (List Char) := wordTokensAux (s.length + 1) s

/-- Join pieces with a separator string. -/
def joinWith (sep : List Char) : List (List Char) → List Char
  | [] => []
  | [x] => x
  | x :: xs => x ++ sep ++ joinWith sep xs

/-- The `title` filter's transformation: each match of `\w\S*` (a word
character and any following non-whitespace) has its first character
upper-cased and the remainder lower-cased. -/
def titleCaseAux : Nat → List Char → List Char
  | 0, s => s
  | _, [] => []
  | f + 1, c :: rest =>
    if isWordCh c then
      let run := (c :: rest).takeWhile (fun x => !isJsSpace x)
      (Char.toUpper c :: (run.drop 1).map Char.toLower) ++
        titleCaseAux f ((c :: rest).drop run.length)
    else c :: titleCaseAux f rest

/-- The `camel` filter's core: on the lower-cased input, each match of
`[^a-zA-Z0-9]+(.)` (a separator run and the following character) is replaced
by that character upper-cased.  A separator run at the end of the input backs
up one character to satisfy the capture; the newline corner cases of `.` are
approximated (no studied input has them). -/
def camelAux : Nat → List Char → List Char
  | 0, s => s
  | _, [] => []
  | f + 1, c :: rest =>
    if isAlphaNumCh c then c :: camelAux f rest
    else
      let run := (c :: rest).takeWhile (fun x => !isAlphaNumCh x)
      match (c :: rest).drop run.length with
      | a :: rest2 => Char.toUpper a :: camelAux f rest2
      | [] =>
        if 2 ≤ run.length && run.getLastD ' ' ≠ '\n' && run.getLastD ' ' ≠ '\x0d'
        then [Char.toUpper (run.getLastD ' ')]
        else run

/-- Global literal replacement (the escaped-literal branch of the `replace`
filter): non-overlapping left-to-right occurrences of `needle` become `repl`;
an empty needle matches between every pair of characters, as the regex does.
`$`-escapes in the replacement are not interpreted by the model. -/
def globalReplaceAux (needle repl : List Char) : Nat → List Char → List Char
  | 0, s => s
  | _, [] => []
  | f + 1, c :: rest =>
    if needle.isPrefixOf (c :: rest) then
      repl ++ globalReplaceAux needle repl f ((c :: rest).drop needle.length)
    else c :: globalReplaceAux needle repl f rest

/-- JS `String.prototype.replace(new RegExp(escapedLiteral, 'g'), repl)`. -/
def jsGlobalReplace (s needle repl : List Char) : List Char :=
  if needle.isEmpty then repl ++ s.foldr (fun c acc => c :: (repl ++ acc)) []
  else globalReplaceAux needle repl (s.length + 1) s

/-- JS `String.prototype.split` with a string separator: an empty separator
splits into single characters (and an empty string to `[]`); otherwise pieces
between non-overlapping occurrences. -/
def jsSplitStrAux (sep : List Char) : Nat → List Char → List Char → List (List Char)
  | 0, s, cur => [cur ++ s]
  | _, [], cur => [cur]
  | f + 1, c :: rest, cur =>
    if sep.isPrefixOf (c :: rest) then
      cur :: jsSplitStrAux sep f ((c :: rest).drop sep.length) []
    else jsSplitStrAux sep f rest (cur ++ [c])

/-- JS split, string separator (see `jsSplitStrAux`). -/
def jsSplitStr (s sep : List Char) : List (List Char) :=
  if sep.isEmpty then s.map (fun c => [c])
  else jsSplitStrAux sep (s.length + 1) s []

/-- ToIntegerOrInfinity of a slice index, resolved against a length:
negative counts from the end, results clamped to `[0, len]`. -/
def jsSliceIdx (len : Nat) (q : JsNum) : Nat :=
  let i : Int := q.num / (q.den : Int)
  if i < 0 then ((len : Int) + i).toNat else min i.toNat len

/-- JS `slice(start, end)` on a list (string characters or array elements). -/
def jsSliceList {α : Type} (l : List α) (start stop : Option JsNum) : List α :=
  let s := match start with | some q => jsSliceIdx l.length q | none => 0
  let e := match stop with | some q => jsSliceIdx l.length q | none => l.length
  (l.take e).drop s

/-- Naive model of `strip_tags` (DOMParser text extraction): drop `<...>`
spans, keep the rest; entities are not decoded by the model. -/
def stripTagsAux : Nat → List Char → List Char
  | 0, s => s
  | _, [] => []
  | f + 1, '<' :: rest => stripTagsAux f ((rest.dropWhile (fun c => c ≠ '>')).drop 1)
  | f + 1, c :: rest => c :: stripTagsAux f rest

/-- JS `parseInt` in base 10: trim, optional sign, longest digit prefix;
`none` is NaN. -/
def jsParseInt (s : List Char) : Option Int :=
  let t := s.dropWhile isJsSpace
  let (sign, t₁) : Int × List Char :=
    match t with
    | '+' :: r => (1, r)
    | '-' :: r => (-1, r)
    | r => (1, r)
  let ds := t₁.takeWhile isDigitCh
  if ds.isEmpty then none
  else some (sign * (ds.foldl (fun a c => a * 10 + digitVal c) 0 : Nat))

/-! ## The filter registry (src/filters.ts).  Each filter models the JS
function's dynamic behavior on the value union, with `Except.error` standing
for a thrown exception.  The external collaborators (moment, DOMParser, the
RegExp engine) are modelled per their use described in the spec; the
unreached corners are noted on each filter. -/

/-- `date(format?, inputFormat?)`: moment parse-then-format (external);
modelled for numeric timestamps with the default format, other inputs
returned unchanged (unparsable path).  Never throws. -/
def dateFilter (val : JsValue) (args : List JsArg) : Except Unit JsValue :=
  let formatStr := match argGet args 0 with | some (.str s) => s | _ => js "YYYY-MM-DD"
  match argGet args 1, val with
  | some (.str _), _ => .ok val
  | _, .num q =>
    if q.den = 1 && formatStr = js "YYYY-MM-DD" then .ok (.str (msToUtcDateStr q.num))
    else .ok val
  | _, _ => .ok val

/-- `date_modify("<signed-int> <unit>")`: throws when the modification is not
a string (`.trim()` on undefined or a number); modelled for day units on
numeric timestamps, other moment behavior returns the value unchanged. -/
def dateModifyFilter (val : JsValue) (args : List JsArg) : Except Unit JsValue :=
  match argGet args 0 with
  | some (.str modification) =>
    let parts := jsSplitStr (jsTrim modification) (js " ")
    let amount := jsParseInt (parts.headD [])
    let unit := parts.getD 1 []
    match val, amount with
    | .num q, some a =>
      if q.den = 1 && (unit = js "day" || unit = js "days" || unit = js "d") then
        .ok (.str (msToUtcDateStr (q.num + a * 86400000)))
      else .ok val
    | _, _ => .ok val
  | _ => .error ()

/-- `capitalize`: first character upper, rest lower, via String(val). -/
def capitalizeFilter (val : JsValue) (_ : List JsArg) : Except Unit JsValue :=
  match jsToString val with
  | [] => .ok (.str [])
  | c :: rest => .ok (.str (Char.toUpper c :: rest.map Char.toLower))

/-- `upper`. -/
def upperFilter (val : JsValue) (_ : List JsArg) : Except Unit JsValue :=
  .ok (.str ((jsToString val).map Char.toUpper))

/-- `lower`. -/
def lowerFilter (val : JsValue) (_ : List JsArg) : Except Unit JsValue :=
  .ok (.str ((jsToString val).map Char.toLower))

/-- `title`: capitalize each `\w\S*` word. -/
def titleFilter (val : JsValue) (_ : List JsArg) : Except Unit JsValue :=
  let s := jsToString val
  .ok (.str (titleCaseAux (s.length + 1) s))

/-- `camel`: lower-case, then each separator run plus following character
becomes that character upper-cased. -/
def camelFilter (val : JsValue) (_ : List JsArg) : Except Unit JsValue :=
  let s := (jsToString val).map Char.toLower
  .ok (.str (camelAux (s.length + 1) s))

/-- `kebab`: word tokens joined with `-`, lower-cased; no tokens means the
regex match was null and the original value passes through (`|| val`). -/
def kebabFilter (val : JsValue) (_ : List JsArg) : Except Unit JsValue :=
  let toks := wordTokens (jsToString val)
  if toks.isEmpty then .ok val
  else .ok (.str (joinWith (js "-") (toks.map (List.map Char.toLower))))

/-- `snake`: like `kebab` with `_`. -/
def snakeFilter (val : JsValue) (_ : List JsArg) : Except Unit JsValue :=
  let toks := wordTokens (jsToString val)
  if toks.isEmpty then .ok val
  else .ok (.str (joinWith (js "_") (toks.map (List.map Char.toLower))))

/-- `trim`. -/
def trimFilter (val : JsValue) (_ : List JsArg) : Except Unit JsValue :=
  .ok (.str (jsTrim (jsToString val)))

/-- `replace(search, replacement)`: the `String(x || "")` coercions never
throw; a search starting with `/` goes to the host RegExp engine (outside the
model: a valid pattern would regex-replace, an invalid one would throw); the
literal branch escapes the search text and global-replaces it, which the
model performs directly. -/
def replaceFilter (val : JsValue) (args : List JsArg) : Except Unit JsValue :=
  let coerce : Option JsArg → List Char := fun a =>
    match a with
    | some (.str s) => s
    | some (.num q) => if q = 0 then [] else jsRatToString q
    | none => []
  let searchStr := coerce (argGet args 0)
  let replaceStr := coerce (argGet args 1)
  if jsStartsWith searchStr (js "/") then .ok val
  else .ok (.str (jsGlobalReplace (jsToString val) searchStr replaceStr))

/-- `wikilink(alias?)`. -/
def wikilinkFilter (val : JsValue) (args : List JsArg) : Except Unit JsValue :=
  let aliasPart := match argGet args 0 with
    | some (.str a) => if a.isEmpty then [] else '|' :: a
    | _ => []
  let one : JsValue → List Char := fun v => js "[[" ++ jsToString v ++ aliasPart ++ js "]]"
  match val with
  | .arr l => .ok (.str (joinWith (js ", ") (l.map one)))
  | v => .ok (.str (one v))

/-- `link(text?)`. -/
def linkFilter (val : JsValue) (args : List JsArg) : Except Unit JsValue :=
  let label := match argGet args 0 with
    | some (.str s) => s
    | _ => js "link"
  let one : JsValue → List Char := fun v => '[' :: label ++ js "](" ++ jsToString v ++ js ")"
  match val with
  | .arr l => .ok (.str (joinWith (js ", ") (l.map one)))
  | v => .ok (.str (one v))

/-- `image(alt?)`. -/
def imageFilter (val : JsValue) (args : List JsArg) : Except Unit JsValue :=
  let txt := match argGet args 0 with
    | some (.str s) => s
    | _ => []
  let one : JsValue → List Char := fun v => js "![" ++ txt ++ js "](" ++ jsToString v ++ js ")"
  match val with
  | .arr l => .ok (.str (joinWith (js "\n") (l.map one)))
  | v => .ok (.str (one v))

/-- `blockquote`: prefix every line with `> `; `val.split` throws on a
non-string value. -/
def blockquoteFilter (val : JsValue) (_ : List JsArg) : Except Unit JsValue :=
  match val with
  | .str s => .ok (.str (joinWith (js "\n") ((jsSplitChar '\n' s).map (fun line => js "> " ++ line))))
  | _ => .error ()

/-- `strip_tags`: DOMParser text extraction (external), modelled as dropping
tag spans. -/
def stripTagsFilter (val : JsValue) (_ : List JsArg) : Except Unit JsValue :=
  let s := jsToString val
  .ok (.str (stripTagsAux (s.length + 1) s))

/-- `split(sep=",")`. -/
def splitFilter (val : JsValue) (args : List JsArg) : Except Unit JsValue :=
  let sep := match argGet args 0 with | some (.str s) => s | _ => js ","
  .ok (.arr ((jsSplitStr (jsToString val) sep).map .str))

/-- `join(sep=",")`. -/
def joinFilter (val : JsValue) (args : List JsArg) : Except Unit JsValue :=
  let sep := match argGet args 0 with | some (.str s) => s | _ => js ","
  match val with
  | .arr l => .ok (.str (joinWith sep (l.map jsToStrElem)))
  | v => .ok v

/-- `first`. -/
def firstFilter (val : JsValue) (_ : List JsArg) : Except Unit JsValue :=
  match val with
  | .arr [] => .ok .undef
  | .arr (x :: _) => .ok x
  | v => .ok v

/-- `last`. -/
def lastFilter (val : JsValue) (_ : List JsArg) : Except Unit JsValue :=
  match val with
  | .arr [] => .ok .undef
  | .arr l => .ok (l.getLastD .undef)
  | v => .ok v

/-- `slice(start, end?)`: non-number start defaults to 0, non-number end to
the length. -/
def sliceFilter (val : JsValue) (args : List JsArg) : Except Unit JsValue :=
  let startQ : JsNum := match argGet args 0 with | some (.num q) => q | _ => 0
  let endQ : Option JsNum := match argGet args 1 with | some (.num q) => some q | _ => none
  match val with
  | .str s => .ok (.str (jsSliceList s (some startQ) endQ))
  | .arr l => .ok (.arr (jsSliceList l (some startQ) endQ))
  | v => .ok v

/-- `count`: array length, otherwise string length. -/
def countFilter (val : JsValue) (_ : List JsArg) : Except Unit JsValue :=
  match val with
  | .arr l => .ok (.num (JsNum.ofInt l.length))
  | v => .ok (.num (JsNum.ofInt (jsToString v).length))

/-- `calc(opExpr)`: `opString.trim()` throws when the argument is missing or
was numerically coerced by `cleanQuote`; otherwise parse a leading `**` or a
single operator character and a number, and apply it to the numeric coercion
of the input (unparsable pieces return the value unchanged).  Division by
zero would give Infinity in JS and is outside the rational model. -/
def calcFilter (val : JsValue) (args : List JsArg) : Except Unit JsValue :=
  match argGet args 0 with
  | some (.str opString) =>
    let trimmed := jsTrim opString
    match jsParseFloat (jsToString val) with
    | none => .ok val
    | some base =>
      if jsStartsWith trimmed (js "**") then
        match jsParseFloat (trimmed.drop 2) with
        | none => .ok val
        | some num => .ok (.num (jsPow base num))
      else
        match trimmed with
        | [] => .ok val
        | op :: rest =>
          match jsParseFloat rest with
          | none => .ok val
          | some num =>
            if op = '+' then .ok (.num (base + num))
            else if op = '-' then .ok (.num (base - num))
            else if op = '*' then .ok (.num (base * num))
            else if op = '/' then .ok (.num (base / num))
            else if op = '^' then .ok (.num (jsPow base num))
            else .ok val
  | _ => .error ()

/-- The fixed filter registry: name to filter function, `none` for
unregistered names. -/
def filtersLookup (name : List Char) : Option (JsValue → List JsArg → Except Unit JsValue) :=
  if name = js "date" then some dateFilter
  else if name = js "date_modify" then some dateModifyFilter
  else if name = js "capitalize" then some capitalizeFilter
  else if name = js "upper" then some upperFilter
  else if name = js "lower" then some lowerFilter
  else if name = js "title" then some titleFilter
  else if name = js "camel" then some camelFilter
  else if name = js "kebab" then some kebabFilter
  else if name = js "snake" then some snakeFilter
  else if name = js "trim" then some trimFilter
  else if name = js "replace" then some replaceFilter
  else if name = js "wikilink" then some wikilinkFilter
  else if name = js "link" then some linkFilter
  else if name = js "image" then some imageFilter
  else if name = js "blockquote" then some blockquoteFilter
  else if name = js "strip_tags" then some stripTagsFilter
  else if name = js "split" then some splitFilter
  else if name = js "join" then some joinFilter
  else if name = js "first" then some firstFilter
  else if name = js "last" then some lastFilter
  else if name = js "slice" then some sliceFilter
  else if name = js "count" then some countFilter
  else if name = js "calc" then some calcFilter
  else none

/-- The pipe-splitting scanner of `applyFilterChain`: split on `|` outside
quotes (one flag toggled by either quote character), trimming each piece; a
final piece is kept only when non-empty. -/
def splitStepsAux : List Char → Bool → List Char → List (List Char)
  | [], _, current => if current.isEmpty then [] else [jsTrim current]
  | c :: rest, inQuote, current =>
    let inQ := if c = '"' || c = '\'' then !inQuote else inQuote
    if c = '|' && !inQ then jsTrim current :: splitStepsAux rest inQ []
    else splitStepsAux rest inQ (current ++ [c])

/-- Steps of a filter chain. -/
def splitSteps (filterChain : List Char) : List (List Char) :=
  splitStepsAux filterChain false []

/-- Split a step at the first `:` into a filter name and its parsed
arguments. -/
def parseStep (step : List Char) : List Char × List JsArg :=
  match step.findIdx? (fun c => c = ':') with
  | none => (step, [])
  | some i => (step.take i, parseArgs (step.drop (i + 1)))

/-- Processing of one chain step: empty steps and unregistered names pass
the value through; a throwing filter is caught (and logged) at this step's
boundary, keeping the pre-step value. -/
def applyStep (result : JsValue) (step : List Char) : JsValue :=
  if step.isEmpty then result
  else
    let na := parseStep step
    match filtersLookup na.1 with
    | none => result
    | some fn =>
      match fn result na.2 with
      | .ok v => v
      | .error _ => result

/-- `applyFilterChain` (src/filters.ts): empty chain returns the value,
otherwise the steps are folded over the value left to right. -/
def applyFilterChain (value : JsValue) (filterChain : List Char) : JsValue :=
  if filterChain.isEmpty then value
  else (splitSteps filterChain).foldl applyStep value

/-! ## Rule-matching engine (src/matcher.ts, App-aware revision).  The host
interfaces (metadata cache, link resolution) appear as fields of the
document context. -/

/-- A resolved field value: the union
`string | number | boolean | string[]` the matcher works with (frontmatter
numbers are modelled as integers; no studied input needs float
frontmatter). -/
inductive FmValue where
  | str (s : List Char)
  | num (n : Int)
  | bool (b : Bool)
  | list (l : List (List Char))
deriving DecidableEq, Repr

/-- The identity facts of a TFile that the matcher reads.  `parentPath`
carries `file.parent?.path || ""` already defaulted. -/
structure TFileModel where
  name : List Char
  basename : List Char
  path : List Char
  parentPath : List Char
  extension : List Char
  size : Int
  ctime : Int
  mtime : Int
deriving Repr

/-- Everything the matcher can reach: the file, the (optional) frontmatter
map, and the host metadata-cache services. -/
structure DocCtx where
  file : TFileModel
  frontmatter : Option (List (List Char × FmValue))
  /-- `cache.tags[i].tag` strings, e.g. `"#movies/action"`. -/
  bodyTags : List (List Char)
  /-- `cache.links[i].link` raw link texts of the body. -/
  bodyLinks : List (List Char)
  /-- `app.metadataCache.getFirstLinkpathDest(text, file.path)?.path`. -/
  resolveLink : List Char → Option (List Char)
  /-- `cache.frontmatter?.aliases` (compared to the frontmatter value by
  value; the JS code compares object references, which coincides on the
  studied inputs). -/
  cacheAliases : Option FmValue

/-- JS object property read on the frontmatter map. -/
def fmLookup (fm : List (List Char × FmValue)) (k : List Char) : Option FmValue :=
  (fm.find? (fun kv => kv.1 == k)).map (·.2)

/-- JS ToString of a resolved value (arrays join with commas). -/
def fmToString : FmValue → List Char
  | .str s => s
  | .num n => jsIntToString n
  | .bool b => if b then js "true" else js "false"
  | .list l => joinWith (js ",") l

/-- JS truthiness of a resolved value. -/
def fmTruthy : FmValue → Bool
  | .str s => !s.isEmpty
  | .num n => !(n == 0)
  | .bool b => b
  | .list _ => true

/-- Strip the leading run of `#` characters (`replace(/^#+/, "")`). -/
def stripHash (s : List Char) : List Char := s.dropWhile (fun c => c = '#')

/-- Strip leading and trailing slashes (`replace(/^\/+|\/+$/g, "")`). -/
def stripSlashes (s : List Char) : List Char :=
  ((s.dropWhile (fun c => c = '/')).reverse.dropWhile (fun c => c = '/')).reverse

/-- Matches of the wikilink pattern `\[\[([^\]]+)\]\]` in a string: the
captured inner texts, scanning left to right, resuming after each match and
advancing one character past a failed candidate. -/
def extractLinksStrAux : Nat → List Char → List (List Char)
  | 0, _ => []
  | _, [] => []
  | f + 1, '[' :: '[' :: rest =>
    let inner := rest.takeWhile (fun c => c ≠ ']')
    if !inner.isEmpty && (js "]]").isPrefixOf (rest.drop inner.length) then
      inner :: extractLinksStrAux f (rest.drop (inner.length + 2))
    else extractLinksStrAux f ('[' :: rest)
  | f + 1, _ :: rest => extractLinksStrAux f rest

/-- Wikilink texts found in one frontmatter value (arrays recursively, other
values via ToString). -/
def extractLinks (v : FmValue) : List (List Char) :=
  match v with
  | .list l => l.flatMap (fun s => extractLinksStrAux (s.length + 1) s)
  | other =>
    let s := fmToString other
    extractLinksStrAux (s.length + 1) s

/-- The per-pair tag test inside `has tag`: exact match, or parent/child
along the `/` hierarchy. -/
def tagPairMatches (fileTag filterTag : List Char) : Bool :=
  fileTag == filterTag ||
  jsStartsWith fileTag (filterTag ++ js "/") ||
  jsStartsWith filterTag (fileTag ++ js "/")

/-- Comma-separated filter-value tokens: split on `,`, trim, drop empties
(the multi-value operators' shared parsing). -/
def splitCommaTokens (v : List Char) : List (List Char) :=
  ((jsSplitChar ',' v).map jsTrim).filter (fun t => !t.isEmpty)

/-- A leaf filter `{ field, operator, value }`. -/
structure FilterRule where
  field : List Char
  operator : List Char
  value : List Char
deriving DecidableEq, Repr

/-- The eight-operator list opening the matcher's date block. -/
def dateOperators : List (List Char) :=
  [js "on", js "not on", js "before", js "on or before", js "after",
   js "on or after", js "is empty", js "is not empty"]

/-- `evaluateFilter` (src/matcher.ts): one leaf filter against a document. -/
def evaluateFilter (filter : FilterRule) (doc : DocCtx) : Bool :=
  if filter.field == js "file" then
    -- the synthetic "file" pseudo-field and its operator families
    let filterValue := filter.value
    if filter.operator == js "links to" || filter.operator == js "does not link to" then
      match doc.resolveLink filterValue with
      | none => filter.operator == js "does not link to"
      | some targetPath =>
        let linkPaths := doc.bodyLinks.filterMap doc.resolveLink
        let fmLinkPaths :=
          match doc.frontmatter with
          | none => []
          | some fm => (fm.flatMap (fun kv => extractLinks kv.2)).filterMap doc.resolveLink
        let hasLink := (linkPaths ++ fmLinkPaths).contains targetPath
        if filter.operator == js "links to" then hasLink else !hasLink
    else if filter.operator == js "in folder" || filter.operator == js "is not in folder" then
      let targetFolder := jsTrim filterValue
      if targetFolder.isEmpty then filter.operator == js "is not in folder"
      else
        let normTarget := stripSlashes targetFolder
        let normFileFolder := stripSlashes doc.file.parentPath
        let isInFolder := normFileFolder == normTarget ||
          jsStartsWith normFileFolder (normTarget ++ js "/")
        if filter.operator == js "in folder" then isInFolder else !isInFolder
    else if filter.operator == js "has tag" || filter.operator == js "does not have tag" then
      let filterTags := splitCommaTokens filterValue
      if filterTags.isEmpty then filter.operator == js "does not have tag"
      else
        let fmTagStrings : List (List Char) :=
          match doc.frontmatter with
          | none => []
          | some fm =>
            match fmLookup fm (js "tags") with
            | some (.list l) =>
              l.map (fun t => if jsStartsWith t (js "#") then t else '#' :: t)
            | some (.str s) =>
              if s.isEmpty then []
              else [if jsStartsWith s (js "#") then s else '#' :: s]
            | _ => []
        let fileTagNames := doc.bodyTags.map stripHash ++ fmTagStrings.map stripHash
        let hasAnyTag := filterTags.any fun ftag =>
          fileTagNames.any fun ftg => tagPairMatches ftg ftag
        if filter.operator == js "has tag" then hasAnyTag else !hasAnyTag
    else if filter.operator == js "has property" || filter.operator == js "does not have property" then
      let propertyName := jsTrim filterValue
      if propertyName.isEmpty then filter.operator == js "does not have property"
      else
        let hasProperty :=
          match doc.frontmatter with
          | none => false
          | some fm => fm.any (fun kv => kv.1 == propertyName)
        if filter.operator == js "has property" then hasProperty else !hasProperty
    else false
  else
    -- ordinary field resolution
    let targetValue : Option FmValue :=
      if jsStartsWith filter.field (js "file.") then
        if filter.field == js "file.name" then some (.str doc.file.name)
        else if filter.field == js "file.basename" then some (.str doc.file.basename)
        else if filter.field == js "file.path" then some (.str doc.file.path)
        else if filter.field == js "file.folder" then some (.str doc.file.parentPath)
        else if filter.field == js "file.size" then some (.num doc.file.size)
        else if filter.field == js "file.ctime" then some (.num doc.file.ctime)
        else if filter.field == js "file.mtime" then some (.num doc.file.mtime)
        else if filter.field == js "file.extension" then some (.str doc.file.extension)
        else none
      else if filter.field == js "file tags" then
        let bodyTagStrings := doc.bodyTags.map stripHash
        let fmTagStrings : List (List Char) :=
          match doc.frontmatter with
          | none => []
          | some fm =>
            match fmLookup fm (js "tags") with
            | some (.list l) => l.map stripHash
            | some (.str s) => if s.isEmpty then [] else [stripHash s]
            | _ => []
        some (.list (bodyTagStrings ++ fmTagStrings))
      else if filter.field == js "aliases" then
        let fmAliases := doc.frontmatter.bind (fun fm => fmLookup fm (js "aliases"))
        let fromFm : List (List Char) :=
          match fmAliases with
          | some (.list l) => l
          | some (.str s) => if s.isEmpty then [] else [s]
          | _ => []
        let fromCache : List (List Char) :=
          match doc.cacheAliases with
          | none => []
          | some ca =>
            if fmTruthy ca && !(some ca == fmAliases) then
              match ca with
              | .list l => l
              | .str s => [s]
              | _ => []
            else []
        some (.list (fromFm ++ fromCache))
      else
        match doc.frontmatter with
        | some fm => fmLookup fm filter.field
        | none => none
    let target := targetValue.getD (.str [])
    -- the ctime/mtime date block
    if (filter.field == js "file.ctime" || filter.field == js "file.mtime") &&
       dateOperators.contains filter.operator &&
       (match target with | .num _ => true | _ => false) then
      match target with
      | .num t =>
        if filter.operator == js "is empty" then t == 0
        else if filter.operator == js "is not empty" then !(t == 0)
        else
          let filterDateStr := splitHeadT filter.value
          if filterDateStr.isEmpty then false
          else
            let targetDateStr := msToUtcDateStr t
            let a := dateStrToMs targetDateStr
            let b := dateStrToMs filterDateStr
            if filter.operator == js "on" then jsNumEqOpt a b
            else if filter.operator == js "not on" then jsNumNeOpt a b
            else if filter.operator == js "before" then jsNumLtOpt a b
            else if filter.operator == js "on or before" then jsNumLeOpt a b
            else if filter.operator == js "after" then jsNumGtOpt a b
            else if filter.operator == js "on or after" then jsNumGeOpt a b
            else false
      | _ => false
    else
      let filterValueS := filter.value
      match target with
      | .list targetArray =>
        if filter.operator == js "is empty" then targetArray.isEmpty
        else if filter.operator == js "is not empty" then !targetArray.isEmpty
        else if filter.operator == js "is" || filter.operator == js "is not" then
          let m := targetArray.any (fun v => v == filterValueS)
          if filter.operator == js "is" then m else !m
        else if filter.operator == js "contains" || filter.operator == js "does not contain" then
          let m := targetArray.any (fun v => jsIncludes v filterValueS)
          if filter.operator == js "contains" then m else !m
        else if filter.operator == js "contains any of" ||
                filter.operator == js "does not contain any of" then
          let filterValues := splitCommaTokens filter.value
          if filterValues.isEmpty then filter.operator == js "does not contain any of"
          else
            let m := filterValues.any fun fv => targetArray.any fun v => jsIncludes v fv
            if filter.operator == js "contains any of" then m else !m
        else if filter.operator == js "contains all of" ||
                filter.operator == js "does not contain all of" then
          let filterValues := splitCommaTokens filter.value
          if filterValues.isEmpty then filter.operator == js "does not contain all of"
          else
            let m := filterValues.all fun fv => targetArray.any fun v => jsIncludes v fv
            if filter.operator == js "contains all of" then m else !m
        else false
      | targetScalar =>
        let ts := fmToString targetScalar
        if filter.operator == js "is empty" then !fmTruthy targetScalar
        else if filter.operator == js "is not empty" then fmTruthy targetScalar
        else if filter.operator == js "is" || filter.operator == js "is not" then
          let m := ts == filterValueS
          if filter.operator == js "is" then m else !m
        else if filter.operator == js "contains" || filter.operator == js "does not contain" then
          let m := jsIncludes ts filterValueS
          if filter.operator == js "contains" then m else !m
        else if filter.operator == js "contains any of" ||
                filter.operator == js "does not contain any of" then
          let filterValues := splitCommaTokens filter.value
          if filterValues.isEmpty then filter.operator == js "does not contain any of"
          else
            let m := filterValues.any fun fv => jsIncludes ts fv
            if filter.operator == js "contains any of" then m else !m
        else if filter.operator == js "contains all of" ||
                filter.operator == js "does not contain all of" then
          let filterValues := splitCommaTokens filter.value
          if filterValues.isEmpty then filter.operator == js "does not contain all of"
          else
            let m := filterValues.all fun fv => jsIncludes ts fv
            if filter.operator == js "contains all of" then m else !m
        else if filter.operator == js "starts with" then jsStartsWith ts filterValueS
        else if filter.operator == js "ends with" then jsEndsWith ts filterValueS
        else false

/-- A node of the rule tree: a leaf filter or a group
`{ operator, conditions }` (the `type` discriminator of the source is the
constructor). -/
inductive RuleNode where
  | filter (f : FilterRule)
  | group (operator : List Char) (conditions : List RuleNode)

mutual

/-- `checkRules` on one node: a group with empty conditions is vacuously
true; otherwise every child is evaluated and the results combine with
`every` for `AND` and with `some` for anything else. -/
def evalNode (doc : DocCtx) : RuleNode → Bool
  | .filter f => evaluateFilter f doc
  | .group operator conditions =>
    if conditions.isEmpty then true
    else
      let results := evalList doc conditions
      if operator == js "AND" then results.all (fun r => r == true)
      else results.any (fun r => r == true)

/-- The `conditions.map(...)` of `checkRules`. -/
def evalList (doc : DocCtx) : List RuleNode → List Bool
  | [] => []
  | c :: rest => evalNode doc c :: evalList doc rest

end

/-- `checkRules` (src/matcher.ts) on a group node.  The null guards of the
source (`!group || !group.conditions`) have no counterpart in the total
model; the `conditions.length === 0` case is the empty list. -/
def checkRules (g : RuleNode) (doc : DocCtx) : Bool := evalNode doc g

/-! ## Template renderer, substitution pass (src/renderer.ts).  The model
covers the placeholder-replacing `template.replace` pass and the markdown
queue it builds; the later DOM passes (markdown mounting, script
re-execution) happen in the host and are outside the model. -/

/-- The placeholder regex's field-name character class `[a-zA-Z0-9_.-]`. -/
def isKeyChar (c : Char) : Bool :=
  isAlphaNumCh c || c = '_' || c = '.' || c = '-'

/-- JS regex line terminators (which `.` does not match). -/
def isLineTerm (c : Char) : Bool :=
  c = '\n' || c = '\x0d' || c.toNat = 0x2028 || c.toNat = 0x2029

/-- JS regex `\s`. -/
def isRegexSpace (c : Char) : Bool :=
  isJsSpace c || c.toNat = 0x2028 || c.toNat = 0x2029

/-- The lazy `(.*?)` before the closing braces: the shortest non-newline run
followed by `\x7d\x7d`; `none` when a line terminator or the end of input
intervenes, making the chain group fail. -/
def findChainEnd : List Char → Option (List Char)
  | '\x7d' :: '\x7d' :: _ => some []
  | c :: rest => if isLineTerm c then none else (findChainEnd rest).map (fun l => c :: l)
  | [] => none

/-- Match of the placeholder regex
`\{\{file\.([a-zA-Z0-9_.-]+)(\[(\d+)\])?(?:\s*\|(.*?))?\}\}` at the head of
the input: the key, the optional index digits, the optional chain text and
the total matched length.  The greedy key run never benefits from
backtracking (a shorter key leaves a key-class character, which none of the
following pieces accept), so the scan is deterministic. -/
def matchPlaceholderAt (rest : List Char) :
    Option (List Char × Option (List Char) × Option (List Char) × Nat) :=
  if (js "\x7b\x7bfile.").isPrefixOf rest then
    let r1 := rest.drop 7
    let key := r1.takeWhile isKeyChar
    if key.isEmpty then none
    else
      let r2 := r1.drop key.length
      let idxPart : Option (List Char) × Nat :=
        match r2 with
        | '[' :: rr =>
          let ds := rr.takeWhile isDigitCh
          if !ds.isEmpty && (rr.drop ds.length).head? = some ']' then
            (some ds, ds.length + 2)
          else (none, 0)
        | _ => (none, 0)
      let r3 := r2.drop idxPart.2
      let ws := r3.takeWhile isRegexSpace
      let chainRes : Option (List Char × Nat) :=
        match r3.drop ws.length with
        | '|' :: body =>
          match findChainEnd body with
          | some chain => some (chain, ws.length + 1 + chain.length + 2)
          | none => none
        | _ => none
      match chainRes with
      | some (chain, clen) =>
        some (key, idxPart.1, some chain, 7 + key.length + idxPart.2 + clen)
      | none =>
        if (js "\x7d\x7d").isPrefixOf r3 then
          some (key, idxPart.1, none, 7 + key.length + idxPart.2 + 2)
        else none
  else none

/-- A frontmatter/file value as the renderer's value union. -/
def fmToJs : FmValue → JsValue
  | .str s => .str s
  | .num n => .num (JsNum.ofInt n)
  | .bool b => .bool b
  | .list l => .arr (l.map .str)

/-- The renderer's `resolveValue(key, index?)`: built-ins, then frontmatter;
`none` is the `null` that collapses the placeholder to an empty string.  An
index selects from an array value (out of range giving `""`) and passes
non-array values through. -/
def resolveValueR (doc : DocCtx) (key : List Char) (index : Option (List Char)) :
    Option JsValue :=
  let value : Option FmValue :=
    if key == js "name" then some (.str doc.file.name)
    else if key == js "basename" then some (.str doc.file.basename)
    else if key == js "size" then some (.num doc.file.size)
    else if key == js "ctime" then some (.num doc.file.ctime)
    else if key == js "mtime" then some (.num doc.file.mtime)
    else
      match doc.frontmatter with
      | some fm => fmLookup fm key
      | none => none
  match value with
  | none => none
  | some v =>
    match index, v with
    | some idxStr, .list l =>
      let i := ((jsParseInt idxStr).getD 0).toNat
      if i < l.length then some (.str (l.getD i [])) else some (.str [])
    | _, _ => some (fmToJs v)

/-- The `number[]` to `string[]` conversion the renderer applies to a
filtered array whose first element is a number. -/
def numArrFix : JsValue → JsValue
  | .arr (JsValue.num q :: rest) =>
    .arr ((JsValue.num q :: rest).map (fun e => JsValue.str (jsToString e)))
  | w => w

/-- The reserved content placeholder's immediate replacement element. -/
def contentDiv (now : Nat) : List Char :=
  js "<div id=\"custom-view-content-" ++ jsNatToString now ++
  js "\" class=\"markdown-rendered-content\"></div>"

/-- Marker id `cv-md-${queue.length}-${Date.now()}`. -/
def markerId (qlen now : Nat) : List Char :=
  js "cv-md-" ++ jsNatToString qlen ++ '-' :: jsNatToString now

/-- The marker span emitted for a body-context placeholder. -/
def markerSpan (pid : List Char) : List Char :=
  js "<span id=\"" ++ pid ++ js "\"></span>"

/-- The replace-callback's substitution decision for one resolved
placeholder: count the quote characters in the template text before the
match offset; odd parity of either kind means attribute context and the raw
stringified value, otherwise a marker span plus a queue entry carrying the
stringified value. -/
def substCallback (tmpl : List Char) (offset : Nat) (value : JsValue)
    (qlen now : Nat) : List Char × Option (List Char × List Char) :=
  let pre := tmpl.take offset
  let doubleQuotes := (pre.filter (fun c => c = '"')).length
  let singleQuotes := (pre.filter (fun c => c = '\'')).length
  let isInsideAttribute := !(doubleQuotes % 2 == 0) || !(singleQuotes % 2 == 0)
  if isInsideAttribute then (jsToString value, none)
  else
    let pid := markerId qlen now
    (markerSpan pid, some (pid, jsToString value))

/-- The placeholder-substitution scan of `renderTemplate`: walk the template,
replace each regex match via the callback, and collect the markdown queue.
The fuel is the remaining length plus one; every step consumes at least one
character, so it never runs out. -/
def renderAux (tmpl : List Char) (doc : DocCtx) (now : Nat) :
    Nat → Nat → List Char → Nat → List Char × List (List Char × List Char)
  | 0, _, rest, _ => (rest, [])
  | _ + 1, _, [], _ => ([], [])
  | f + 1, i, c :: rest, qlen =>
    match matchPlaceholderAt (c :: rest) with
    | none =>
      let r := renderAux tmpl doc now f (i + 1) rest qlen
      (c :: r.1, r.2)
    | some (key, idx, chain, len) =>
      let remaining := (c :: rest).drop len
      if key = js "content" then
        let r := renderAux tmpl doc now f (i + len) remaining qlen
        (contentDiv now ++ r.1, r.2)
      else
        let rep : Option JsValue :=
          match resolveValueR doc key idx with
          | none => none
          | some v0 =>
            match chain with
            | none => some v0
            | some ch =>
              match applyFilterChain v0 (jsTrim ch) with
              | .null => none
              | .undef => none
              | w => some (numArrFix w)
        match rep with
        | none => renderAux tmpl doc now f (i + len) remaining qlen
        | some v =>
          let sc := substCallback tmpl i v qlen now
          match sc.2 with
          | none =>
            let r := renderAux tmpl doc now f (i + len) remaining qlen
            (sc.1 ++ r.1, r.2)
          | some entry =>
            let r := renderAux tmpl doc now f (i + len) remaining (qlen + 1)
            (sc.1 ++ r.1, entry :: r.2)

/-- The substituted template and the markdown queue produced by
`renderTemplate`'s replace pass (`Date.now()` is the `now` parameter). -/
def renderSubst (template : List Char) (doc : DocCtx) (now : Nat) :
    List Char × List (List Char × List Char) :=
  renderAux template doc now (template.length + 1) 0 template 0

/-! ## Concrete fixtures used by the theorems below -/

/-- A sample file identity (created 2024-01-15T10:30Z, modified
2024-01-15T09:30Z). -/
def sampleFile : TFileModel :=
  { name := js "Note.md", basename := js "Note", path := js "Note.md",
    parentPath := js "", extension := js "md", size := 10,
    ctime := 1705314600000, mtime := 1705311000000 }

/-- A document with empty frontmatter and no tags or links. -/
def emptyDoc : DocCtx :=
  { file := sampleFile, frontmatter := some [], bodyTags := [],
    bodyLinks := [], resolveLink := fun _ => none, cacheAliases := none }

/-- A document whose only tag is `#movies/action`. -/
def docMoviesAction : DocCtx := { emptyDoc with bodyTags := [js "#movies/action"] }

/-- A document whose only tag is `#movies`. -/
def docMovies : DocCtx := { emptyDoc with bodyTags := [js "#movies"] }

/-- A document with frontmatter `genres: ["xa"]`. -/
def docGenresXa : DocCtx :=
  { emptyDoc with frontmatter := some [(js "genres", FmValue.list [js "xa"])] }

/-- A document with frontmatter `genres: ["xa", "yb"]`. -/
def docGenresXaYb : DocCtx :=
  { emptyDoc with frontmatter := some [(js "genres", FmValue.list [js "xa", js "yb"])] }

/-- A document with frontmatter `cover: "[[pic.png]]"`. -/
def docCover : DocCtx :=
  { emptyDoc with frontmatter := some [(js "cover", FmValue.str (js "[[pic.png]]"))] }

/-- A leaf filter that evaluates to true on `emptyDoc` (a missing
frontmatter key resolves to the empty string, which is empty). -/
def alwaysTrueLeaf : RuleNode := .filter ⟨js "missing", js "is empty", js ""⟩

/-! ## Claims about the filter chain -/

/-- C2: the spec expects `applyFilterChain(5, "calc:+3 | calc:**2")` to be
64; on the code it is 25.  `cleanQuote` numerically coerces the argument
`"+3"` to the number 3, `calc` then calls `.trim()` on a number and throws,
the error is swallowed leaving the value 5, and the second step computes
`5 ** 2 = 25`. -/
theorem C2_calc_chain_evaluates_to_25 :
    applyFilterChain (.num 5) (js "calc:+3 | calc:**2") = .num 25 ∧
    parseArgs (js "+3") = [.num 3] ∧
    filtersLookup (js "calc") = some calcFilter ∧
    (calcFilter (.num 5) (parseArgs (js "+3"))).isOk = false :=
  ⟨rfl, rfl, rfl, rfl⟩

/-- C9: a chain step whose name is not a registry key is a no-op, and in
particular `applyFilterChain("x", "bogus_filter")` returns `"x"`. -/
theorem C9_unregistered_filter_noop :
    (∀ (v : JsValue) (step : List Char),
      filtersLookup (parseStep step).1 = none → applyStep v step = v) ∧
    applyFilterChain (.str (js "x")) (js "bogus_filter") = .str (js "x") := by
  refine ⟨?_, rfl⟩
  intro v step h
  unfold applyStep
  by_cases hs : step.isEmpty
  · simp [hs]
  · simp [hs, h]

/-- Witness for C9 at the concrete unregistered name `bogus_filter`. -/
theorem C9_unregistered_filter_noop_witness :
    applyStep (.str (js "x")) (js "bogus_filter") = .str (js "x") :=
  C9_unregistered_filter_noop.1 _ _ (by rfl)

/-- C8: a throwing filter invocation is caught at that step's boundary, the
pipeline keeps the pre-step value, the remaining steps still run on it, and
`applyFilterChain` returns normally (it is a total function into values, by
construction of the catch). -/
theorem C8_filter_error_fail_soft :
    (∀ (v : JsValue) (step : List Char)
       (fn : JsValue → List JsArg → Except Unit JsValue),
      filtersLookup (parseStep step).1 = some fn →
      (fn v (parseStep step).2).isOk = false →
      applyStep v step = v) ∧
    (∀ (v : JsValue) (step : List Char) (restSteps : List (List Char))
       (fn : JsValue → List JsArg → Except Unit JsValue),
      filtersLookup (parseStep step).1 = some fn →
      (fn v (parseStep step).2).isOk = false →
      List.foldl applyStep v (step :: restSteps) = List.foldl applyStep v restSteps) ∧
    (∀ (v : JsValue) (chain : List Char), chain.isEmpty = false →
      applyFilterChain v chain = List.foldl applyStep v (splitSteps chain)) := by
  have h1 : ∀ (v : JsValue) (step : List Char)
      (fn : JsValue → List JsArg → Except Unit JsValue),
      filtersLookup (parseStep step).1 = some fn →
      (fn v (parseStep step).2).isOk = false →
      applyStep v step = v := by
    intro v step fn hfn herr
    unfold applyStep
    by_cases hs : step.isEmpty
    · simp [hs]
    · simp only [hs, Bool.false_eq_true, if_false, hfn]
      cases hres : fn v (parseStep step).2 with
      | ok w => rw [hres] at herr; simp [Except.isOk, Except.toBool] at herr
      | error e => simp
  refine ⟨h1, ?_, ?_⟩
  · intro v step restSteps fn hfn herr
    rw [List.foldl_cons, h1 v step fn hfn herr]
  · intro v chain h
    unfold applyFilterChain
    simp [h]

/-- Witness for C8: the first step of `calc:+3 | calc:**2` throws on the
numerically-coerced argument, and the chain behaves as the step-free fold. -/
theorem C8_filter_error_fail_soft_witness :
    applyStep (.num 5) (js "calc:+3") = .num 5 ∧
    List.foldl applyStep (.num 5) [js "calc:+3", js "calc:**2"] =
      List.foldl applyStep (.num 5) [js "calc:**2"] ∧
    applyFilterChain (.num 5) (js "calc:+3 | calc:**2") =
      List.foldl applyStep (.num 5) (splitSteps (js "calc:+3 | calc:**2")) :=
  ⟨C8_filter_error_fail_soft.1 _ _ calcFilter (by rfl) (by rfl),
   C8_filter_error_fail_soft.2.1 _ _ _ calcFilter (by rfl) (by rfl),
   C8_filter_error_fail_soft.2.2 _ _ (by rfl)⟩

/-- C10: an unquoted argument token whose trimmed text parses fully as a
number (signed forms like `+3` included) reaches the filter as a number; a
token wrapped in matching quotes has exactly one quote layer stripped and is
always passed as a string, even when its content is numeric. -/
theorem C10_argument_numeric_coercion :
    (∀ (s : List Char) (q : JsNum),
      (jsStartsWith (jsTrim s) (js "\"") && jsEndsWith (jsTrim s) (js "\"")) = false →
      (jsStartsWith (jsTrim s) (js "'") && jsEndsWith (jsTrim s) (js "'")) = false →
      jsStrToNumber (jsTrim s) = some q →
      cleanQuote s = .num q) ∧
    (∀ s : List Char,
      ((jsStartsWith (jsTrim s) (js "\"") && jsEndsWith (jsTrim s) (js "\"")) = true ∨
       (jsStartsWith (jsTrim s) (js "'") && jsEndsWith (jsTrim s) (js "'")) = true) →
      cleanQuote s = .str (((jsTrim s).drop 1).dropLast)) ∧
    parseArgs (js "+3") = [.num 3] ∧
    parseArgs (js "'+3'") = [.str (js "+3")] ∧
    parseArgs (js "\"3\"") = [.str (js "3")] := by
  refine ⟨?_, ?_, rfl, rfl, rfl⟩
  · intro s q hdq hsq hnum
    unfold cleanQuote
    simp only [hdq, hsq, Bool.or_self, Bool.false_eq_true, if_false, hnum]
  · intro s h
    unfold cleanQuote
    rcases h with h | h <;> simp [h]

/-- Witness for C10: the unquoted token `+3` becomes the number 3, the
quoted token `'+3'` stays the string `+3`. -/
theorem C10_argument_numeric_coercion_witness :
    cleanQuote (js "+3") = .num 3 ∧ cleanQuote (js "'+3'") = .str (js "+3") :=
  ⟨C10_argument_numeric_coercion.1 _ 3 (by rfl) (by rfl) (by rfl),
   C10_argument_numeric_coercion.2.1 _ (Or.inr (by rfl))⟩

/-! ## Claims about the rule-matching engine -/

/-- C1 (code evaluation): `checkRules` branches only on `AND` versus
everything else, so a `NOR` group evaluates exactly like the `OR` group over
the same conditions — not like its negation.  At the concrete failing input
(a single condition that holds), both the NOR and the OR group return true,
while the spec requires the NOR group to return false. -/
theorem C1_nor_behaves_like_or :
    (∀ (doc : DocCtx) (conds : List RuleNode),
      evalNode doc (.group (js "NOR") conds) = evalNode doc (.group (js "OR") conds)) ∧
    evalNode emptyDoc (.group (js "NOR") [alwaysTrueLeaf]) = true ∧
    evalNode emptyDoc (.group (js "OR") [alwaysTrueLeaf]) = true := by
  refine ⟨?_, rfl, rfl⟩
  intro doc conds
  rfl

/-- C3: a filter group with empty conditions evaluates to true, and an empty
group nested at any position inside another group's conditions contributes
true there as well (hence at any depth, since `evalList` is what every group
applies to its children). -/
theorem C3_empty_group_vacuously_true :
    (∀ (doc : DocCtx) (op : List Char), evalNode doc (.group op []) = true) ∧
    (∀ (doc : DocCtx) (op : List Char) (pre post : List RuleNode),
      evalList doc (pre ++ RuleNode.group op [] :: post) =
        evalList doc pre ++ true :: evalList doc post) := by
  have h1 : ∀ (doc : DocCtx) (op : List Char), evalNode doc (.group op []) = true := by
    intro doc op
    simp [evalNode]
  refine ⟨h1, ?_⟩
  intro doc op pre post
  induction pre with
  | nil => simp [evalList, h1]
  | cons c cs ih => simp [evalList, ih]

/-- Prefix test against an appended `/` as an existence statement. -/
theorem slashPrefix_iff (a b : List Char) :
    jsStartsWith b (a ++ js "/") = true ↔ ∃ s, b = a ++ '/' :: s := by
  rw [jsStartsWith, List.isPrefixOf_iff_prefix]
  constructor
  · rintro ⟨t, ht⟩
    exact ⟨t, by rw [← ht]; simp [show (js "/") = ['/'] from rfl]⟩
  · rintro ⟨s, hs⟩
    exact ⟨s, by rw [hs]; simp [show (js "/") = ['/'] from rfl]⟩

/-- C6: a filter tag matches a file tag exactly when they are equal or one
extends the other by a `/`-separated suffix; `movies` matches
`movies/action` in both directions while `movie` does not match `movies`. -/
theorem C6_has_tag_hierarchical :
    (∀ fileTag filterTag : List Char,
      tagPairMatches fileTag filterTag = true ↔
        (fileTag = filterTag ∨ (∃ s, fileTag = filterTag ++ '/' :: s) ∨
          (∃ s, filterTag = fileTag ++ '/' :: s))) ∧
    evaluateFilter ⟨js "file", js "has tag", js "movies"⟩ docMoviesAction = true ∧
    evaluateFilter ⟨js "file", js "has tag", js "movies/action"⟩ docMovies = true ∧
    evaluateFilter ⟨js "file", js "has tag", js "movie"⟩ docMovies = false ∧
    evaluateFilter ⟨js "file", js "does not have tag", js "movie"⟩ docMovies = true := by
  refine ⟨?_, rfl, rfl, rfl, rfl⟩
  intro fileTag filterTag
  rw [tagPairMatches]
  simp only [Bool.or_eq_true, beq_iff_eq, slashPrefix_iff, or_assoc]

/-- Witness for C6: the parent tag `movies` matches the file tag
`movies/action` through the suffix characterization. -/
theorem C6_has_tag_hierarchical_witness :
    tagPairMatches (js "movies/action") (js "movies") = true :=
  (C6_has_tag_hierarchical.1 _ _).mpr (Or.inr (Or.inl ⟨js "action", by rfl⟩))

/-- C7 counterexample: with filter value `""` the token list is empty, the
claimed equivalence's right side holds vacuously, yet `contains all of`
returns false (the code answers `false` whenever no tokens remain). -/
theorem C7_contains_all_of_empty_value_counterexample :
    ¬(evaluateFilter ⟨js "genres", js "contains all of", js ""⟩ docGenresXa = true ↔
      ∀ tok ∈ splitCommaTokens (js ""), ∃ e ∈ [js "xa"], jsIncludes e tok = true) := by
  decide

/-- C7 (amended): `contains all of` splits the filter value on commas, trims
the tokens and drops empty ones; when at least one token remains it returns
true exactly when every token is a substring of some element of the target
list (with zero tokens it returns false, not the vacuous truth).
`contains any of` returns true exactly when some token is a substring of
some element, with no proviso.  The spec's concrete examples hold. -/
theorem C7_contains_all_any_of_tokens :
    (∀ (fld v : List Char) (target : List (List Char)) (f : TFileModel)
       (tags links : List (List Char)) (rl : List Char → Option (List Char))
       (ca : Option FmValue),
      jsStartsWith fld (js "file.") = false → fld ≠ js "file" →
      fld ≠ js "file tags" → fld ≠ js "aliases" →
      splitCommaTokens v ≠ [] →
      (evaluateFilter ⟨fld, js "contains all of", v⟩
          ⟨f, some [(fld, .list target)], tags, links, rl, ca⟩ = true ↔
        ∀ tok ∈ splitCommaTokens v, ∃ e ∈ target, jsIncludes e tok = true)) ∧
    (∀ (fld v : List Char) (target : List (List Char)) (f : TFileModel)
       (tags links : List (List Char)) (rl : List Char → Option (List Char))
       (ca : Option FmValue),
      jsStartsWith fld (js "file.") = false → fld ≠ js "file" →
      fld ≠ js "file tags" → fld ≠ js "aliases" →
      (evaluateFilter ⟨fld, js "contains any of", v⟩
          ⟨f, some [(fld, .list target)], tags, links, rl, ca⟩ = true ↔
        ∃ tok ∈ splitCommaTokens v, ∃ e ∈ target, jsIncludes e tok = true)) ∧
    evaluateFilter ⟨js "genres", js "contains all of", js "a,b"⟩ docGenresXaYb = true ∧
    evaluateFilter ⟨js "genres", js "contains all of", js "a,b"⟩ docGenresXa = false ∧
    evaluateFilter ⟨js "genres", js "contains any of", js "a,b"⟩ docGenresXa = true := by
  refine ⟨?_, ?_, rfl, rfl, rfl⟩
  · intro fld v target f tags links rl ca hpre hfile htags hal htoks
    have hb1 : (fld == js "file") = false := by
      simp only [beq_eq_false_iff_ne]; exact hfile
    have hb3 : (fld == js "file tags") = false := by
      simp only [beq_eq_false_iff_ne]; exact htags
    have hb4 : (fld == js "aliases") = false := by
      simp only [beq_eq_false_iff_ne]; exact hal
    have htokb : (splitCommaTokens v).isEmpty = false := by
      simp [List.isEmpty_iff, htoks]
    unfold evaluateFilter
    simp only [hb1, hpre, hb3, hb4, Bool.false_eq_true, if_false,
      show dateOperators.contains (js "contains all of") = false from rfl,
      Bool.and_false, Bool.false_and,
      show (js "contains all of" == js "is empty") = false from rfl,
      show (js "contains all of" == js "is not empty") = false from rfl,
      show (js "contains all of" == js "is") = false from rfl,
      show (js "contains all of" == js "is not") = false from rfl,
      show (js "contains all of" == js "contains") = false from rfl,
      show (js "contains all of" == js "does not contain") = false from rfl,
      show (js "contains all of" == js "contains any of") = false from rfl,
      show (js "contains all of" == js "does not contain any of") = false from rfl,
      show (js "contains all of" == js "contains all of") = true from rfl,
      Bool.or_self, Bool.or_false, Bool.false_or, Bool.true_or, Bool.or_true,
      if_true, List.find?, fmLookup, beq_self_eq_true, Option.map_some',
      Option.getD_some, htokb]
    simp only [List.all_eq_true, List.any_eq_true]
  · intro fld v target f tags links rl ca hpre hfile htags hal
    have hb1 : (fld == js "file") = false := by
      simp only [beq_eq_false_iff_ne]; exact hfile
    have hb3 : (fld == js "file tags") = false := by
      simp only [beq_eq_false_iff_ne]; exact htags
    have hb4 : (fld == js "aliases") = false := by
      simp only [beq_eq_false_iff_ne]; exact hal
    unfold evaluateFilter
    simp only [hb1, hpre, hb3, hb4, Bool.false_eq_true, if_false,
      show dateOperators.contains (js "contains any of") = false from rfl,
      Bool.and_false, Bool.false_and,
      show (js "contains any of" == js "is empty") = false from rfl,
      show (js "contains any of" == js "is not empty") = false from rfl,
      show (js "contains any of" == js "is") = false from rfl,
      show (js "contains any of" == js "is not") = false from rfl,
      show (js "contains any of" == js "contains") = false from rfl,
      show (js "contains any of" == js "does not contain") = false from rfl,
      show (js "contains any of" == js "contains any of") = true from rfl,
      Bool.or_self, Bool.or_false, Bool.false_or, Bool.true_or, Bool.or_true,
      if_true, List.find?, fmLookup, beq_self_eq_true, Option.map_some',
      Option.getD_some]
    by_cases htoks : splitCommaTokens v = []
    · simp [htoks]
      decide
    · have htokb : (splitCommaTokens v).isEmpty = false := by
        simp [List.isEmpty_iff, htoks]
      simp only [htokb, Bool.false_eq_true, if_false, List.any_eq_true]

/-- Witness for C7 at the field `genres` and the spec's example inputs. -/
theorem C7_contains_all_any_of_tokens_witness :
    (evaluateFilter ⟨js "genres", js "contains all of", js "a,b"⟩ docGenresXaYb = true ↔
      ∀ tok ∈ splitCommaTokens (js "a,b"), ∃ e ∈ [js "xa", js "yb"],
        jsIncludes e tok = true) ∧
    (evaluateFilter ⟨js "genres", js "contains any of", js "a,b"⟩ docGenresXa = true ↔
      ∃ tok ∈ splitCommaTokens (js "a,b"), ∃ e ∈ [js "xa"], jsIncludes e tok = true) :=
  ⟨C7_contains_all_any_of_tokens.1 (js "genres") (js "a,b") [js "xa", js "yb"]
      sampleFile [] [] (fun _ => none) none (by rfl) (by decide) (by decide)
      (by decide) (by decide),
   C7_contains_all_any_of_tokens.2.1 (js "genres") (js "a,b") [js "xa"]
      sampleFile [] [] (fun _ => none) none (by rfl) (by decide) (by decide)
      (by decide)⟩

/-! ## Claims about the template renderer -/

/-- C4: for a matched, resolved placeholder the renderer counts the quote
characters in the template text strictly before the match offset; odd parity
of either kind substitutes the raw stringified value with no markdown queue
entry, even parity of both substitutes a marker span identified by the queue
index and timestamp and queues the stringified value.  The spec's
attribute/body example templates behave accordingly end-to-end through the
substitution scan. -/
theorem C4_attribute_context_escaping :
    (∀ (tmpl : List Char) (offset : Nat) (v : JsValue) (qlen now : Nat),
      (((tmpl.take offset).filter (fun c => c = '"')).length % 2 ≠ 0 ∨
       ((tmpl.take offset).filter (fun c => c = '\'')).length % 2 ≠ 0) →
      substCallback tmpl offset v qlen now = (jsToString v, none)) ∧
    (∀ (tmpl : List Char) (offset : Nat) (v : JsValue) (qlen now : Nat),
      ((tmpl.take offset).filter (fun c => c = '"')).length % 2 = 0 →
      ((tmpl.take offset).filter (fun c => c = '\'')).length % 2 = 0 →
      substCallback tmpl offset v qlen now =
        (markerSpan (markerId qlen now), some (markerId qlen now, jsToString v))) ∧
    renderSubst (js "<img src=\"\x7b\x7bfile.cover\x7d\x7d\">") docCover 7 =
      (js "<img src=\"[[pic.png]]\">", []) ∧
    renderSubst (js "<p>\x7b\x7bfile.cover\x7d\x7d</p>") docCover 7 =
      (js "<p><span id=\"cv-md-0-7\"></span></p>",
        [(js "cv-md-0-7", js "[[pic.png]]")]) := by
  refine ⟨?_, ?_, rfl, rfl⟩
  · intro tmpl offset v qlen now h
    unfold substCallback
    rcases h with h | h
    · have : (((tmpl.take offset).filter (fun c => c = '"')).length % 2 == 0) = false := by
        simp [Nat.eq_zero_of_dvd_of_lt]
        omega
      simp [this]
    · have : (((tmpl.take offset).filter (fun c => c = '\'')).length % 2 == 0) = false := by
        simp
        omega
      simp [this]
  · intro tmpl offset v qlen now h1 h2
    unfold substCallback
    simp [h1, h2]

/-- Witness for C4: inside the attribute of the image template (one `"`
before the match) the raw value is substituted; in the body template it is
queued behind marker `cv-md-0-7`. -/
theorem C4_attribute_context_escaping_witness :
    substCallback (js "<img src=\"") 10 (.str (js "[[pic.png]]")) 0 7 =
      (js "[[pic.png]]", none) ∧
    substCallback (js "<p>") 3 (.str (js "[[pic.png]]")) 0 7 =
      (markerSpan (markerId 0 7), some (markerId 0 7, js "[[pic.png]]")) :=
  ⟨C4_attribute_context_escaping.1 _ _ _ _ _ (Or.inl (by decide)),
   C4_attribute_context_escaping.2.1 _ _ _ _ _ (by decide) (by decide)⟩

/-! ## Validity of the civil conversion (supporting lemmas for C5) -/

/-- Leap test within the 400-year cycle (`era * 400 + zz` is leap iff this
holds of `zz`, since 400 divides the era offset). -/
def leap400 (zz : Nat) : Bool :=
  (zz % 4 == 0 && zz % 100 != 0) || zz % 400 == 0

/-- The year-of-era extraction is monotone in the day-of-era. -/
theorem yoeOf_mono : Monotone yoeOf := by
  apply monotone_nat_of_le_succ
  intro d
  unfold yoeOf
  omega

set_option maxRecDepth 4000 in
/-- The year-of-era at the first day of each year is that year. -/
theorem yoeOf_yearStart : ∀ y, y < 400 → yoeOf (yearStart y) = y := by decide

set_option maxRecDepth 4000 in
/-- The last day-of-era of each year (the era ends at 146097) still maps to
that year. -/
theorem yoeOf_yearEnd :
    ∀ y, y < 400 →
      yoeOf ((if y = 399 then 146097 else yearStart (y + 1)) - 1) = y := by decide

set_option maxRecDepth 4000 in
/-- Per-day-of-year facts, by enumeration: month and day-of-month are in
range (February capped at 28 except on the leap day 365), and the month is
January or February exactly from day 306 on. -/
theorem doyFacts :
    ∀ x, x < 366 →
      1 ≤ mD x ∧ mD x ≤ 12 ∧ 1 ≤ dD x ∧
      dD x ≤ (if mD x = 2 then (if x = 365 then 29 else 28)
              else if mD x = 4 ∨ mD x = 6 ∨ mD x = 9 ∨ mD x = 11 then 30 else 31) ∧
      (mD x ≤ 2 ↔ 306 ≤ x) := by decide

/-- Correctness of the year-of-era extraction: every day-of-era lies inside
the year the formula assigns it (sandwich between the two endpoint sweeps
via monotonicity). -/
theorem yoeOf_correct (doe : Nat) (h : doe < 146097) :
    yoeOf doe ≤ 399 ∧ yearStart (yoeOf doe) ≤ doe ∧
    doe < (if yoeOf doe = 399 then 146097 else yearStart (yoeOf doe + 1)) := by
  have h399 : yoeOf doe ≤ 399 := by
    have hm : yoeOf doe ≤ yoeOf 146096 := yoeOf_mono (by omega)
    have he : yoeOf 146096 = 399 := by
      have := yoeOf_yearEnd 399 (by omega)
      simpa using this
    omega
  refine ⟨h399, ?_, ?_⟩
  · by_contra hlt
    push_neg at hlt
    rcases Nat.eq_zero_or_pos (yoeOf doe) with h0 | hpos
    · rw [h0] at hlt
      have : yearStart 0 = 0 := by decide
      omega
    · set y := yoeOf doe with hy
      have hy1 : y - 1 < 400 := by omega
      have hne : ¬(y - 1 = 399) := by omega
      have hstep : (if y - 1 = 399 then 146097 else yearStart (y - 1 + 1)) = yearStart y := by
        rw [if_neg hne]
        congr 1
        omega
      have hmono : yoeOf doe ≤ yoeOf (yearStart y - 1) := by
        apply yoeOf_mono
        omega
      have hend := yoeOf_yearEnd (y - 1) hy1
      rw [hstep] at hend
      omega
  · by_contra hge
    push_neg at hge
    by_cases h399' : yoeOf doe = 399
    · rw [if_pos h399'] at hge
      omega
    · rw [if_neg h399'] at hge
      have hmono : yoeOf (yearStart (yoeOf doe + 1)) ≤ yoeOf doe := yoeOf_mono hge
      have hstart := yoeOf_yearStart (yoeOf doe + 1) (by omega)
      omega

/-- The day-of-year is at most 365, and day 365 occurs only in a year whose
January/February belong to a leap year of the 400-year cycle. -/
theorem doyOf_bound (doe : Nat) (h : doe < 146097) :
    doyOf doe ≤ 365 ∧ (doyOf doe = 365 → leap400 (yoeOf doe + 1) = true) := by
  obtain ⟨h399, hlo, hhi⟩ := yoeOf_correct doe h
  have hdoy : doyOf doe = doe - yearStart (yoeOf doe) := rfl
  by_cases hy : yoeOf doe = 399
  · rw [hy] at hlo hhi ⊢
    rw [if_pos rfl] at hhi
    have hys : yearStart 399 = 145731 := by decide
    constructor
    · unfold doyOf
      rw [hy, hys]
      omega
    · intro _
      decide
  · rw [if_neg hy] at hhi
    set y := yoeOf doe with hyd
    have harith : yearStart (y + 1) - yearStart y ≤ 366 ∧
        (yearStart (y + 1) - yearStart y = 366 →
          (y + 1) % 4 = 0 ∧ (y + 1) % 100 ≠ 0) := by
      unfold yearStart
      omega
    constructor
    · unfold doyOf
      rw [← hyd]
      omega
    · intro h365
      unfold doyOf at h365
      rw [← hyd] at h365
      have hlen : yearStart (y + 1) - yearStart y = 366 := by omega
      obtain ⟨h4, h100⟩ := harith.2 hlen
      unfold leap400
      simp only [Bool.or_eq_true, Bool.and_eq_true, beq_iff_eq, bne_iff_ne]
      exact Or.inl ⟨h4, h100⟩

/-- Code point of a digit character. -/
theorem toNat_digitChar (k : Nat) (h : k < 10) : (digitChar k).toNat = 48 + k := by
  interval_cases k <;> decide

/-- Digit characters are digits. -/
theorem isDigit_digitChar (k : Nat) (h : k < 10) : isDigitCh (digitChar k) = true := by
  unfold isDigitCh
  rw [toNat_digitChar k h]
  simp
  omega

/-- Reading back a digit character. -/
theorem digitVal_digitChar (k : Nat) (h : k < 10) : digitVal (digitChar k) = k := by
  unfold digitVal
  rw [toNat_digitChar k h]
  omega

/-- Digit characters are not `'T'`. -/
theorem digitChar_ne_T (k : Nat) (h : k < 10) :
    (decide (digitChar k ≠ 'T')) = true := by
  apply decide_eq_true
  intro heq
  have hn := congrArg Char.toNat heq
  rw [toNat_digitChar k h] at hn
  have h84 : ('T').toNat = 84 := rfl
  rw [h84] at hn
  omega

/-- `takeWhile` keeps a list none of whose elements fail the test. -/
theorem takeWhile_all {p : Char → Bool} :
    ∀ l : List Char, (∀ c ∈ l, p c = true) → l.takeWhile p = l := by
  intro l
  induction l with
  | nil => intro _; rfl
  | cons c rest ih =>
    intro h
    rw [List.takeWhile_cons]
    simp [h c (by simp), ih (fun x hx => h x (by simp [hx]))]

/-- The formatted civil date has no `'T'`, so the `split('T')[0]` truncation
leaves it unchanged. -/
theorem splitHeadT_formatCivil (y m d : Nat) :
    splitHeadT (formatCivil (y, m, d)) = formatCivil (y, m, d) := by
  show splitHeadT
      [digitChar (y / 1000 % 10), digitChar (y / 100 % 10),
       digitChar (y / 10 % 10), digitChar (y % 10), '-',
       digitChar (m / 10 % 10), digitChar (m % 10), '-',
       digitChar (d / 10 % 10), digitChar (d % 10)] = _
  unfold splitHeadT
  have hys : y / 1000 % 10 < 10 := Nat.mod_lt _ (by omega)
  have hyh : y / 100 % 10 < 10 := Nat.mod_lt _ (by omega)
  have hyt : y / 10 % 10 < 10 := Nat.mod_lt _ (by omega)
  have hyo : y % 10 < 10 := Nat.mod_lt _ (by omega)
  have hmt : m / 10 % 10 < 10 := Nat.mod_lt _ (by omega)
  have hmo : m % 10 < 10 := Nat.mod_lt _ (by omega)
  have hdt : d / 10 % 10 < 10 := Nat.mod_lt _ (by omega)
  have hdo : d % 10 < 10 := Nat.mod_lt _ (by omega)
  have hne : ∀ k, k < 10 → decide (digitChar k = 'T') = false := by
    intro k hk
    simpa using of_decide_eq_true (digitChar_ne_T k hk)
  simp [List.takeWhile_cons, hne _ hys, hne _ hyh, hne _ hyt, hne _ hyo,
    hne _ hmt, hne _ hmo, hne _ hdt, hne _ hdo]
  rfl

/-- Parsing the formatted civil date recovers the fields when they are in
range and the day fits its month. -/
theorem parse_formatCivil (y m d : Nat) (hy : y ≤ 9999) (hm1 : 1 ≤ m)
    (hm : m ≤ 12) (hd1 : 1 ≤ d) (hd31 : d ≤ 31) (hdm : d ≤ daysInMonth y m) :
    parseUtcDate (formatCivil (y, m, d)) = some (y, m, d) := by
  have hys : y / 1000 % 10 < 10 := Nat.mod_lt _ (by omega)
  have hyh : y / 100 % 10 < 10 := Nat.mod_lt _ (by omega)
  have hyt : y / 10 % 10 < 10 := Nat.mod_lt _ (by omega)
  have hyo : y % 10 < 10 := Nat.mod_lt _ (by omega)
  have hmt : m / 10 % 10 < 10 := Nat.mod_lt _ (by omega)
  have hmo : m % 10 < 10 := Nat.mod_lt _ (by omega)
  have hdt : d / 10 % 10 < 10 := Nat.mod_lt _ (by omega)
  have hdo : d % 10 < 10 := Nat.mod_lt _ (by omega)
  show parseUtcDate
      [digitChar (y / 1000 % 10), digitChar (y / 100 % 10),
       digitChar (y / 10 % 10), digitChar (y % 10), '-',
       digitChar (m / 10 % 10), digitChar (m % 10), '-',
       digitChar (d / 10 % 10), digitChar (d % 10)] = some (y, m, d)
  unfold parseUtcDate
  simp only [List.all_cons, List.all_nil, isDigit_digitChar _ hys,
    isDigit_digitChar _ hyh, isDigit_digitChar _ hyt, isDigit_digitChar _ hyo,
    isDigit_digitChar _ hmt, isDigit_digitChar _ hmo, isDigit_digitChar _ hdt,
    isDigit_digitChar _ hdo, Bool.and_true, Bool.and_self, Bool.true_and,
    if_true, digitVal_digitChar _ hys, digitVal_digitChar _ hyh,
    digitVal_digitChar _ hyt, digitVal_digitChar _ hyo,
    digitVal_digitChar _ hmt, digitVal_digitChar _ hmo,
    digitVal_digitChar _ hdt, digitVal_digitChar _ hdo]
  have hyrec : ((y / 1000 % 10 * 10 + y / 100 % 10) * 10 + y / 10 % 10) * 10 + y % 10 = y := by
    omega
  have hmrec : m / 10 % 10 * 10 + m % 10 = m := by omega
  have hdrec : d / 10 % 10 * 10 + d % 10 = d := by omega
  rw [hyrec, hmrec, hdrec]
  have hcond : (1 ≤ m && m ≤ 12 && (1 ≤ d) && (d ≤ daysInMonth y m)) = true := by
    simp only [Bool.and_eq_true, decide_eq_true_eq]
    exact ⟨⟨⟨hm1, hm⟩, hd1⟩, hdm⟩
  simp [hcond]

/-- Leap status only depends on the position in the 400-year cycle. -/
theorem isLeap_era (era zz : Nat) : isLeap (era * 400 + zz) = leap400 zz := by
  rw [Bool.eq_iff_iff]
  simp only [isLeap, leap400, Bool.or_eq_true, Bool.and_eq_true,
    decide_eq_true_eq, beq_iff_eq, bne_iff_ne, ne_eq]
  omega

/-- Master validity of the UTC date rendering: for timestamps from the epoch
up to the year 10000 the rendered string is a well-formed `YYYY-MM-DD` date
whose fields are in range and whose day fits its month. -/
theorem msToUtcDateStr_valid (t : Int) (h0 : 0 ≤ t) (hM : t < 253402300800000) :
    ∃ y m d : Nat, msToUtcDateStr t = formatCivil (y, m, d) ∧ y ≤ 9999 ∧
      1 ≤ m ∧ m ≤ 12 ∧ 1 ≤ d ∧ d ≤ 31 ∧ d ≤ daysInMonth y m := by
  have htn : ((t.toNat : Int)) = t := Int.toNat_of_nonneg h0
  set n := t.toNat with hndef
  have hnM : n < 253402300800000 := by omega
  have hfd : Int.fdiv t 86400000 = ((n / 86400000 : Nat) : Int) := by
    rw [← htn]
    rw [Int.fdiv_eq_tdiv (by positivity) (by norm_num)]
    exact (Int.ofNat_tdiv n 86400000).symm
  set zN : Nat := n / 86400000 + 719468 with hzdef
  have hmz : msToUtcDateStr t = formatCivil (civilFromDays zN) := by
    unfold msToUtcDateStr
    rw [hfd]
    rw [if_neg (by omega)]
    have harg : (((n / 86400000 : Nat) : Int) + 719468).toNat = zN := by omega
    rw [harg]
  set doe := zN % 146097 with hdoe
  set era := zN / 146097 with hera
  have hdoeLt : doe < 146097 := Nat.mod_lt _ (by omega)
  have hzlo : 719468 ≤ zN := by omega
  have hzhi : zN ≤ 3652364 := by omega
  have heraLo : 4 ≤ era := by omega
  have heraHi : era ≤ 24 := by omega
  have hzsum : zN = 146097 * era + doe := by omega
  obtain ⟨hyoe399, hlo, hhi⟩ := yoeOf_correct doe hdoeLt
  obtain ⟨hdoy365, hleap⟩ := doyOf_bound doe hdoeLt
  obtain ⟨hm1, hm12, hd1, hdlim, hbound⟩ := doyFacts (doyOf doe) (by omega)
  have hciv : civilFromDays zN = (era * 400 + zzOf doe, monthOf doe, dayOf doe) := rfl
  have hmonth : monthOf doe = mD (doyOf doe) := rfl
  have hday' : dayOf doe = dD (doyOf doe) := rfl
  have hd31 : dD (doyOf doe) ≤ 31 := by
    split_ifs at hdlim <;> omega
  have hzz400 : zzOf doe ≤ 400 := by
    unfold zzOf
    split_ifs <;> omega
  have hy9999 : era * 400 + zzOf doe ≤ 9999 := by
    by_cases hz4 : zzOf doe = 400
    · have hyoe : yoeOf doe = 399 ∧ monthOf doe ≤ 2 := by
        unfold zzOf at hz4
        split_ifs at hz4 with hmle
        · exact ⟨by omega, hmle⟩
        · omega
      have h306 : 306 ≤ doyOf doe := by
        rw [hmonth] at hyoe
        exact hbound.mp hyoe.2
      have hys399 : yearStart 399 = 145731 := by decide
      have hdoe146037 : 146037 ≤ doe := by
        have : doyOf doe = doe - yearStart (yoeOf doe) := rfl
        rw [hyoe.1] at hlo this
        omega
      have : era ≤ 23 := by omega
      omega
    · omega
  refine ⟨era * 400 + zzOf doe, monthOf doe, dayOf doe, by rw [hmz, hciv], hy9999,
    by rw [hmonth]; exact hm1, by rw [hmonth]; exact hm12,
    by rw [hday']; exact hd1, by rw [hday']; exact hd31, ?_⟩
  rw [hday', hmonth]
  unfold daysInMonth
  by_cases hfeb : mD (doyOf doe) = 2
  · rw [if_pos hfeb]
    have hmle : monthOf doe ≤ 2 := by
      rw [hmonth, hfeb]
    have hzz : zzOf doe = yoeOf doe + 1 := by
      unfold zzOf
      rw [if_pos hmle]
    by_cases h365 : doyOf doe = 365
    · have hl := hleap h365
      rw [hzz, isLeap_era, hl, if_pos rfl]
      rw [if_pos hfeb, if_pos h365] at hdlim
      exact hdlim
    · rw [if_pos hfeb, if_neg h365] at hdlim
      split_ifs <;> omega
  · rw [if_neg hfeb]
    rw [if_neg hfeb] at hdlim
    by_cases h30 : mD (doyOf doe) = 4 ∨ mD (doyOf doe) = 6 ∨
        mD (doyOf doe) = 9 ∨ mD (doyOf doe) = 11
    · rw [if_pos h30] at hdlim
      have hcond : (decide (mD (doyOf doe) = 4) || decide (mD (doyOf doe) = 6) ||
          decide (mD (doyOf doe) = 9) || decide (mD (doyOf doe) = 11)) = true := by
        simp only [Bool.or_eq_true, decide_eq_true_eq]
        omega
      simp only [hcond, if_true]
      exact hdlim
    · rw [if_neg h30] at hdlim
      have hcond : (decide (mD (doyOf doe) = 4) || decide (mD (doyOf doe) = 6) ||
          decide (mD (doyOf doe) = 9) || decide (mD (doyOf doe) = 11)) = false := by
        simp only [Bool.or_eq_false_iff, decide_eq_false_iff_not]
        omega
      simp only [hcond, Bool.false_eq_true, if_false]
      exact hdlim

/-- The rendered UTC date string parses back to a valid time (never NaN). -/
theorem dateStrToMs_msToUtc_isSome (t : Int) (h0 : 0 ≤ t)
    (hM : t < 253402300800000) :
    ∃ v, dateStrToMs (msToUtcDateStr t) = some v := by
  obtain ⟨y, m, d, heq, hy, hm1, hm, hd1, hd31, hdm⟩ := msToUtcDateStr_valid t h0 hM
  refine ⟨daysFromCivil y m d * 86400000, ?_⟩
  rw [heq]
  unfold dateStrToMs
  rw [parse_formatCivil y m d hy hm1 hm hd1 hd31 hdm]
  rfl

/-- The rendered UTC date string contains no `'T'`. -/
theorem splitHeadT_msToUtc (t : Int) (h0 : 0 ≤ t) (hM : t < 253402300800000) :
    splitHeadT (msToUtcDateStr t) = msToUtcDateStr t := by
  obtain ⟨y, m, d, heq, _⟩ := msToUtcDateStr_valid t h0 hM
  rw [heq]
  exact splitHeadT_formatCivil y m d

/-- The rendered UTC date string is non-empty. -/
theorem msToUtc_not_empty (t : Int) (h0 : 0 ≤ t) (hM : t < 253402300800000) :
    (msToUtcDateStr t).isEmpty = false := by
  obtain ⟨y, m, d, heq, _⟩ := msToUtcDateStr_valid t h0 hM
  rw [heq]
  rfl

/-- The matcher's ctime/mtime date block as a standalone function of the
operator, the filter value and the timestamp. -/
def dateBlockResult (op v : List Char) (t : Int) : Bool :=
  if op == js "is empty" then t == 0
  else if op == js "is not empty" then !(t == 0)
  else
    let filterDateStr := splitHeadT v
    if filterDateStr.isEmpty then false
    else
      let targetDateStr := msToUtcDateStr t
      let a := dateStrToMs targetDateStr
      let b := dateStrToMs filterDateStr
      if op == js "on" then jsNumEqOpt a b
      else if op == js "not on" then jsNumNeOpt a b
      else if op == js "before" then jsNumLtOpt a b
      else if op == js "on or before" then jsNumLeOpt a b
      else if op == js "after" then jsNumGtOpt a b
      else if op == js "on or after" then jsNumGeOpt a b
      else false

/-- A document context whose file has both timestamps set to `t`. -/
def docWithTimes (f : TFileModel) (fm : Option (List (List Char × FmValue)))
    (tags links : List (List Char)) (rl : List Char → Option (List Char))
    (ca : Option FmValue) (t : Int) : DocCtx :=
  ⟨{ f with ctime := t, mtime := t }, fm, tags, links, rl, ca⟩

/-- Evaluating a ctime/mtime filter with a date-block operator reduces to
the date block on the timestamp. -/
theorem evalFilter_dateBlock (fld op v : List Char)
    (hfld : fld = js "file.ctime" ∨ fld = js "file.mtime")
    (hop : op ∈ dateOperators) (f : TFileModel)
    (fm : Option (List (List Char × FmValue))) (tags links : List (List Char))
    (rl : List Char → Option (List Char)) (ca : Option FmValue) (t : Int) :
    evaluateFilter ⟨fld, op, v⟩ (docWithTimes f fm tags links rl ca t) =
      dateBlockResult op v t := by
  have hc : dateOperators.contains op = true := List.elem_eq_true_of_mem hop
  rcases hfld with rfl | rfl <;>
    (unfold evaluateFilter docWithTimes
     simp only [hc,
       show (js "file.ctime" == js "file") = false from rfl,
       show (js "file.mtime" == js "file") = false from rfl,
       show jsStartsWith (js "file.ctime") (js "file.") = true from rfl,
       show jsStartsWith (js "file.mtime") (js "file.") = true from rfl,
       show (js "file.ctime" == js "file.name") = false from rfl,
       show (js "file.mtime" == js "file.name") = false from rfl,
       show (js "file.ctime" == js "file.basename") = false from rfl,
       show (js "file.mtime" == js "file.basename") = false from rfl,
       show (js "file.ctime" == js "file.path") = false from rfl,
       show (js "file.mtime" == js "file.path") = false from rfl,
       show (js "file.ctime" == js "file.folder") = false from rfl,
       show (js "file.mtime" == js "file.folder") = false from rfl,
       show (js "file.ctime" == js "file.size") = false from rfl,
       show (js "file.mtime" == js "file.size") = false from rfl,
       show (js "file.ctime" == js "file.ctime") = true from rfl,
       show (js "file.mtime" == js "file.ctime") = false from rfl,
       show (js "file.mtime" == js "file.mtime") = true from rfl,
       show (js "file.ctime" == js "file.mtime") = false from rfl,
       Bool.false_eq_true, if_false, if_true, Option.getD_some,
       Bool.true_or, Bool.or_true, Bool.true_and, Bool.and_true, Bool.and_self]
     rfl)

/-- The six date-family comparison operators. -/
def dateComparisonOps : List (List Char) :=
  [js "on", js "not on", js "before", js "on or before", js "after",
   js "on or after"]

/-- C5: on `file.ctime`/`file.mtime`, the date-family operators compare by
UTC calendar day — the result depends on the timestamp only through its UTC
date string, and any two timestamps of the same UTC day (within the
four-digit-year range of the model) both satisfy `on` against that day's
date string — while `is empty`/`is not empty` test the raw numeric
timestamp against zero and never touch the date path. -/
theorem C5_ctime_mtime_calendar_day :
    (∀ (fld : List Char), fld = js "file.ctime" ∨ fld = js "file.mtime" →
      ∀ (op v : List Char), op ∈ dateComparisonOps →
      ∀ (t₁ t₂ : Int) (f : TFileModel) (fm : Option (List (List Char × FmValue)))
        (tags links : List (List Char)) (rl : List Char → Option (List Char))
        (ca : Option FmValue),
      msToUtcDateStr t₁ = msToUtcDateStr t₂ →
      evaluateFilter ⟨fld, op, v⟩ (docWithTimes f fm tags links rl ca t₁) =
        evaluateFilter ⟨fld, op, v⟩ (docWithTimes f fm tags links rl ca t₂)) ∧
    (∀ (fld : List Char), fld = js "file.ctime" ∨ fld = js "file.mtime" →
      ∀ (t₁ t₂ : Int) (f : TFileModel) (fm : Option (List (List Char × FmValue)))
        (tags links : List (List Char)) (rl : List Char → Option (List Char))
        (ca : Option FmValue),
      0 ≤ t₁ → t₁ < 253402300800000 → 0 ≤ t₂ → t₂ < 253402300800000 →
      msToUtcDateStr t₁ = msToUtcDateStr t₂ →
      evaluateFilter ⟨fld, js "on", msToUtcDateStr t₁⟩
          (docWithTimes f fm tags links rl ca t₁) = true ∧
      evaluateFilter ⟨fld, js "on", msToUtcDateStr t₁⟩
          (docWithTimes f fm tags links rl ca t₂) = true) ∧
    (∀ (fld : List Char), fld = js "file.ctime" ∨ fld = js "file.mtime" →
      ∀ (t : Int) (v : List Char) (f : TFileModel)
        (fm : Option (List (List Char × FmValue)))
        (tags links : List (List Char)) (rl : List Char → Option (List Char))
        (ca : Option FmValue),
      evaluateFilter ⟨fld, js "is empty", v⟩
          (docWithTimes f fm tags links rl ca t) = decide (t = 0) ∧
      evaluateFilter ⟨fld, js "is not empty", v⟩
          (docWithTimes f fm tags links rl ca t) = decide (t ≠ 0)) := by
  refine ⟨?_, ?_, ?_⟩
  · intro fld hfld op v hop t₁ t₂ f fm tags links rl ca hday
    have hop8 : op ∈ dateOperators := by
      fin_cases hop <;> decide
    rw [evalFilter_dateBlock fld op v hfld hop8,
      evalFilter_dateBlock fld op v hfld hop8]
    fin_cases hop <;> (unfold dateBlockResult; rw [hday]; rfl)
  · intro fld hfld t₁ t₂ f fm tags links rl ca h01 hM1 h02 hM2 hday
    rw [evalFilter_dateBlock fld _ _ hfld (by decide),
      evalFilter_dateBlock fld _ _ hfld (by decide)]
    obtain ⟨w, hw⟩ := dateStrToMs_msToUtc_isSome t₁ h01 hM1
    constructor
    · show (if (splitHeadT (msToUtcDateStr t₁)).isEmpty then false
        else jsNumEqOpt (dateStrToMs (msToUtcDateStr t₁))
          (dateStrToMs (splitHeadT (msToUtcDateStr t₁)))) = true
      rw [splitHeadT_msToUtc t₁ h01 hM1, msToUtc_not_empty t₁ h01 hM1, hw]
      simp [jsNumEqOpt]
    · show (if (splitHeadT (msToUtcDateStr t₁)).isEmpty then false
        else jsNumEqOpt (dateStrToMs (msToUtcDateStr t₂))
          (dateStrToMs (splitHeadT (msToUtcDateStr t₁)))) = true
      rw [splitHeadT_msToUtc t₁ h01 hM1, msToUtc_not_empty t₁ h01 hM1, hday]
      obtain ⟨w₂, hw₂⟩ := dateStrToMs_msToUtc_isSome t₂ h02 hM2
      rw [hw₂]
      simp [jsNumEqOpt]
  · intro fld hfld t v f fm tags links rl ca
    constructor
    · rw [evalFilter_dateBlock fld _ _ hfld (by decide)]
      show (t == 0) = decide (t = 0)
      by_cases h : t = 0 <;> simp [h]
    · rw [evalFilter_dateBlock fld _ _ hfld (by decide)]
      show (!(t == 0)) = decide (t ≠ 0)
      by_cases h : t = 0 <;> simp [h]

/-- Witness for C5 at 2024-01-15T10:30Z and 2024-01-15T09:30Z: same UTC
day, both satisfy `on` against `"2024-01-15"`, day-congruence holds for
`before`, and the empty checks see the raw number. -/
theorem C5_ctime_mtime_calendar_day_witness :
    evaluateFilter ⟨js "file.ctime", js "before", js "2024-02-01"⟩
        (docWithTimes sampleFile (some []) [] [] (fun _ => none) none 1705314600000) =
      evaluateFilter ⟨js "file.ctime", js "before", js "2024-02-01"⟩
        (docWithTimes sampleFile (some []) [] [] (fun _ => none) none 1705311000000) ∧
    evaluateFilter ⟨js "file.ctime", js "on", msToUtcDateStr 1705314600000⟩
        (docWithTimes sampleFile (some []) [] [] (fun _ => none) none 1705314600000) = true ∧
    evaluateFilter ⟨js "file.ctime", js "on", msToUtcDateStr 1705314600000⟩
        (docWithTimes sampleFile (some []) [] [] (fun _ => none) none 1705311000000) = true ∧
    evaluateFilter ⟨js "file.mtime", js "is empty", js ""⟩
        (docWithTimes sampleFile (some []) [] [] (fun _ => none) none 1705311000000) = false :=
  ⟨C5_ctime_mtime_calendar_day.1 _ (Or.inl rfl) _ _ (by decide)
      1705314600000 1705311000000 sampleFile (some []) [] [] (fun _ => none) none (by rfl),
   (C5_ctime_mtime_calendar_day.2.1 _ (Or.inl rfl)
      1705314600000 1705311000000 sampleFile (some []) [] [] (fun _ => none) none
      (by decide) (by decide) (by decide) (by decide) (by rfl)).1,
   (C5_ctime_mtime_calendar_day.2.1 _ (Or.inl rfl)
      1705314600000 1705311000000 sampleFile (some []) [] [] (fun _ => none) none
      (by decide) (by decide) (by decide) (by decide) (by rfl)).2,
   by
    rw [(C5_ctime_mtime_calendar_day.2.2 _ (Or.inr rfl)
      1705311000000 (js "") sampleFile (some []) [] [] (fun _ => none) none).1]
    decide⟩
